import Mathlib

/-
  Verification development for the `stack_compiler` repository: a shallow
  embedding in Lean 4 of the pipeline's AST (`compiler/ast_nodes.py`), the
  semantic analyzer (`compiler/semantic_analyzer.py`), the bytecode
  generator (`compiler/stack_codegen.py`), the virtual machine
  (`compiler/stack_interpreter.py`), and the string-token rule of the
  lexer (`compiler/lexer.py`), together with theorems settling the claims
  about this code.

  Conventions of the embedding:
  * Python `None` for an optional value is `Option.none`; the type-tag
    strings returned by the analyzer's visitors keep their Python values
    (`"int"`, `"unknown"`, ...), with Python `None` results as `none`.
  * Python dictionaries are association lists with overwrite-or-append
    update (`dictSet`), which matches insertion-ordered `dict` semantics.
  * One bytecode line `"OP a b"` or `"NAME:"` is a `Line`; the VM's
    `instr.split()` / `instr.endswith(":")` dissection corresponds to the
    constructor of `Line`, and `" ".join(parts[1:])` is the `" "`-join of
    the operand list.
  * Python exceptions are an `Except` error type `Exn`, distinguishing the
    exception classes the code can raise (`SemanticError`, built-in
    `AttributeError` ..., plain `Exception`).
  * Machine integers of Python are unbounded, as is Lean `Int`; Python
    floats appear in this code only on paths no claim exercises, and are
    modelled as exact rationals (`Rat`).
-/

namespace StackCompiler

/-! ## Python values -/

/-- A Python runtime value as it appears in this pipeline: literal values
    stored in AST nodes and values on the VM's operand stack
    (int / float / str / bool / None). -/
inductive PyVal where
  | int (n : Int)
  | float (q : Rat)
  | str (s : String)
  | bool (b : Bool)
  | nil
deriving DecidableEq, Repr

/-- The Python exception classes this code base can raise. -/
inductive Exn where
  | semanticError (msg : String)     -- class SemanticError(Exception)
  | attributeError (msg : String)    -- built-in AttributeError
  | keyError (msg : String)          -- built-in KeyError (dict lookup miss)
  | indexError (msg : String)        -- built-in IndexError (pop from empty list)
  | typeError (msg : String)         -- built-in TypeError
  | valueError (msg : String)        -- built-in ValueError
  | zeroDivisionError (msg : String) -- built-in ZeroDivisionError
  | runtimeError (msg : String)      -- built-in RuntimeError
  | exception (msg : String)         -- plain Exception(...)
deriving DecidableEq, Repr

/-! ## Decimal rendering of naturals

Python renders `f"{n}"` for a non-negative int as its decimal digits. The
fueled helper below computes exactly that, and is structurally recursive so
the kernel can evaluate it. -/

/-- One decimal digit character, as Python prints it (digits 0-9 only). -/
def digitCh (n : Nat) : Char := Nat.digitChar n

/-- Fueled accumulator loop producing the decimal digits of `n` in front of
    `acc`; correct whenever `n < fuel`. -/
def natStrGo : Nat → Nat → List Char → List Char
  | 0, _, acc => acc
  | fuel + 1, n, acc =>
    let acc' := digitCh (n % 10) :: acc
    if n < 10 then acc' else natStrGo fuel (n / 10) acc'

/-- Decimal rendering of a natural number, matching Python's `f"{n}"`. -/
def natStr (n : Nat) : String := ⟨natStrGo (n + 1) n []⟩

/-- Decimal rendering of a Python int (used for `f"{value}"` on literals):
    a minus sign before the digits of the absolute value. -/
def intStr (n : Int) : String :=
  if n < 0 then "-" ++ natStr n.natAbs else natStr n.natAbs

/-- Python's `str()` of a float, approximated for the rational model: this
    pipeline's claims never evaluate it, it exists so `pyStr` is total. -/
def floatStr (q : Rat) : String := intStr q.num ++ "/" ++ natStr q.den

/-- Python's `str()` (f-string interpolation) of a value of this pipeline.
    Note a string value interpolates verbatim (its quotes, which the lexer
    kept, included), and booleans print `True` / `False`. -/
def pyStr : PyVal → String
  | .int n => intStr n
  | .float q => floatStr q
  | .str s => s
  | .bool b => if b then "True" else "False"
  | .nil => "None"

/-- Python's `str()` of an `Optional[str]`: the string itself, or `"None"`. -/
def optStr : Option String → String
  | some s => s
  | none => "None"

/-- Python `str.upper()` for the ASCII keywords this code upcases
    (character-wise `Char.toUpper`; equivalent to `String.toUpper`, written
    over the character list so the kernel can evaluate it). -/
def strUpper (s : String) : String := ⟨s.data.map Char.toUpper⟩

/-! ## The AST (`compiler/ast_nodes.py`) -/

/-- The AST node classes of `ast_nodes.py`, one constructor per class, each
    carrying its `lineno`. Optional children (`else_body`, the three `for`
    clauses, a `return` value) are `Option`; `Assignment.target`,
    `FunCall.name` and the parameter list hold `Identifier` nodes. -/
inductive Node where
  | Program (statements : List Node) (lineno : Nat)
  | Block (statements : List Node) (lineno : Nat)
  | Literal (value : PyVal) (lineno : Nat)
  | Identifier (name : String) (lineno : Nat)
  | BinOp (op : String) (left : Node) (right : Node) (lineno : Nat)
  | UnaryOp (op : String) (expr : Node) (lineno : Nat)
  | Assignment (target : Node) (value : Node) (lineno : Nat)
  | ExprStatement (expr : Node) (lineno : Nat)
  | IfStatement (condition : Node) (then_body : Node) (else_body : Option Node) (lineno : Nat)
  | WhileStatement (condition : Node) (body : Node) (lineno : Nat)
  | ForStatement (init : Option Node) (condition : Option Node) (update : Option Node)
      (body : Node) (lineno : Nat)
  | FunctionDef (name : String) (params : List Node) (body : Node) (lineno : Nat)
  | FunCall (name : Node) (args : List Node) (lineno : Nat)
  | ReturnStatement (value : Option Node) (lineno : Nat)
  | ControlFlow (keyword : String) (lineno : Nat)

/-- `node.__class__.__name__`, used by both dispatchers and in messages. -/
def nodeClassName : Node → String
  | .Program .. => "Program"
  | .Block .. => "Block"
  | .Literal .. => "Literal"
  | .Identifier .. => "Identifier"
  | .BinOp .. => "BinOp"
  | .UnaryOp .. => "UnaryOp"
  | .Assignment .. => "Assignment"
  | .ExprStatement .. => "ExprStatement"
  | .IfStatement .. => "IfStatement"
  | .WhileStatement .. => "WhileStatement"
  | .ForStatement .. => "ForStatement"
  | .FunctionDef .. => "FunctionDef"
  | .FunCall .. => "FunCall"
  | .ReturnStatement .. => "ReturnStatement"
  | .ControlFlow .. => "ControlFlow"

/-- `repr(node)`: `Node.__repr__` prints `<ClassName>`, and `BinOp`
    overrides it with `<BinOp op=...>`. -/
def nodeRepr : Node → String
  | .BinOp op _ _ _ => "<BinOp op=" ++ op ++ ">"
  | n => "<" ++ nodeClassName n ++ ">"

/-- The `lineno` attribute common to all nodes. -/
def Node.lineno : Node → Nat
  | .Program _ ln | .Block _ ln | .Literal _ ln | .Identifier _ ln
  | .BinOp _ _ _ ln | .UnaryOp _ _ ln | .Assignment _ _ ln | .ExprStatement _ ln
  | .IfStatement _ _ _ ln | .WhileStatement _ _ ln | .ForStatement _ _ _ _ ln
  | .FunctionDef _ _ _ ln | .FunCall _ _ ln | .ReturnStatement _ ln
  | .ControlFlow _ ln => ln

/-- Whether a node is a `Block` (drives `visit_Block`'s attribute access). -/
def isBlockNode : Node → Bool
  | .Block .. => true
  | _ => false

/-- Whether a node is a `FunctionDef` (the class check in `gen_Program`). -/
def isFunctionDef : Node → Bool
  | .FunctionDef .. => true
  | _ => false

/-! ## Lexer: the string-literal token rule (`compiler/lexer.py`)

`t_STRING` matches `"[^"\n]*"|'[^'\n]*'` and returns the token object
unchanged, so the token's stored value is the raw matched lexeme. -/

/-- Whether `lex` matches the `t_STRING` regular expression
    `"[^"\n]*"|\x27[^\x27\n]*\x27`: a double quote, then characters that are
    neither a double quote nor a newline, then a double quote; or the same
    with single quotes. -/
def isStringLexeme (lex : String) : Bool :=
  match lex.data with
  | [] => false
  | c :: rest =>
    (c = '"' || c = '\x27') &&
    match rest.reverse with
    | [] => false
    | cLast :: midRev =>
      cLast = c && (midRev.all fun m => m ≠ c && m ≠ '\n')

/-- The value `t_STRING` stores on the token: the rule body is just
    `return t`, so the lexeme is kept verbatim (quotes included). -/
def t_STRING_value (lexeme : String) : String := lexeme

/-! ## Semantic analyzer (`compiler/semantic_analyzer.py`) -/

/-- A `Symbol` record: name, optional type tag, line of declaration, and
    (for functions) the parameter list. -/
structure Symbol where
  name : String
  type : Option String
  lineno : Nat
  params : List Node

/-- One scope frame: Python `dict` from name to `Symbol`, as an
    insertion-ordered association list. -/
abbrev Scope := List (String × Symbol)

/-- Overwrite-or-append update, the semantics of `d[k] = v` on a Python
    `dict` modelled as an association list. -/
def dictSet {α : Type} (d : List (String × α)) (k : String) (v : α) : List (String × α) :=
  match d with
  | [] => [(k, v)]
  | (k', v') :: rest => if k' = k then (k, v) :: rest else (k', v') :: dictSet rest k v

/-- Lookup in a Python `dict` modelled as an association list. -/
def dictGet? {α : Type} (d : List (String × α)) (k : String) : Option α :=
  match d with
  | [] => none
  | (k', v) :: rest => if k' = k then some v else dictGet? rest k

/-- The analyzer's mutable state: the symbol table's scope stack (frame 0,
    the global scope, first, innermost last, as in the Python list),
    `current_function` and `loop_depth`. -/
structure AState where
  scopes : List Scope
  current_function : Option String
  loop_depth : Nat

/-- `SymbolTable()`: one empty global scope. -/
def initAState : AState := { scopes := [[]], current_function := none, loop_depth := 0 }

/-- `push_scope`: append a fresh frame (at the end of the Python list). -/
def pushScope (st : AState) : AState := { st with scopes := st.scopes ++ [[]] }

/-- `pop_scope`: drop the innermost (last) frame. -/
def popScope (st : AState) : AState := { st with scopes := st.scopes.dropLast }

/-- `declare`: write into the innermost (last) frame. -/
def declareSym (st : AState) (name : String) (sym : Symbol) : AState :=
  { st with scopes :=
      match st.scopes.reverse with
      | [] => []  -- never happens: the scope stack is non-empty
      | inner :: outerRev => ((dictSet inner name sym) :: outerRev).reverse }

/-- Search the frames innermost-first (the list is reversed by the caller). -/
def resolveRev (name : String) : List Scope → Option Symbol
  | [] => none
  | scope :: outer =>
    match dictGet? scope name with
    | some sym => some sym
    | none => resolveRev name outer

/-- `SymbolTable.resolve(name, lineno)`: walk the scopes from the innermost
    frame outward; raise `SemanticError` when the name is nowhere. (Every
    analyzer call site passes a line number, so the message always carries
    one.) -/
def resolveSym (st : AState) (name : String) (lineno : Nat) : Except Exn Symbol :=
  match resolveRev name st.scopes.reverse with
  | some sym => .ok sym
  | none => .error (.semanticError
      ("Use of undefined variable \x27" ++ name ++ "\x27 at line " ++ natStr lineno))

/-- Mutate the `type` field of the symbol object `resolve` found: the update
    lands in the innermost frame that binds `name` (Python mutates the
    shared `Symbol` object in place). -/
def updateTypeRev (name : String) (ty : Option String) : List Scope → List Scope
  | [] => []
  | scope :: outer =>
    match dictGet? scope name with
    | some sym => (dictSet scope name { sym with type := ty }) :: outer
    | none => scope :: updateTypeRev name ty outer

/-- State-level wrapper for `sym.type = ty` after a successful `resolve`. -/
def setSymType (st : AState) (name : String) (ty : Option String) : AState :=
  { st with scopes := (updateTypeRev name ty st.scopes.reverse).reverse }

/-- Python truthiness of an `Optional[str]` (`sym.type or "null"`). -/
def optStrTruthy : Option String → Bool
  | none => false
  | some s => s ≠ ""

/-- The post-propagation type rules of `visit_BinOp` (its straight-line tail
    after the unknown-propagation block): string concatenation, the modulo
    guard, the arithmetic result, equality, relational, the (dead) logical
    branch keyed on `"and"`/`"or"`, and the final `return lt`. -/
def binopTypeRules (op : String) (lt rt : Option String) (lineno : Nat) :
    Except Exn (Option String) :=
  if op = "+" ∧ (lt = some "string" ∨ rt = some "string") then
    .ok (some "string")
  else if op = "%" ∧ (lt ≠ some "int" ∨ rt ≠ some "int") then
    .error (.semanticError
      ("Modulo \x27%\x27 requires integer operands, got " ++ optStr lt ++ " and " ++
        optStr rt ++ " at line " ++ natStr lineno))
  else if (lt = some "int" ∨ lt = some "float") ∧ (rt = some "int" ∨ rt = some "float") then
    .ok (some (if lt = some "float" ∨ rt = some "float" then "float" else "int"))
  else if op = "==" ∨ op = "!=" then
    if lt = some "null" ∨ rt = some "null" then .ok (some "bool")
    else if lt ≠ rt then
      .error (.semanticError
        ("Cannot compare \x27" ++ optStr lt ++ "\x27 with \x27" ++ optStr rt ++
          "\x27 using \x27" ++ op ++ "\x27 at line " ++ natStr lineno))
    else .ok (some "bool")
  else if op = "<" ∨ op = "<=" ∨ op = ">" ∨ op = ">=" then
    if (lt = some "int" ∨ lt = some "float") ∧ (rt = some "int" ∨ rt = some "float") then
      .ok (some "bool")
    else if lt = some "string" ∧ rt = some "string" then .ok (some "bool")
    else
      .error (.semanticError
        ("Operator \x27" ++ op ++ "\x27 not supported between \x27" ++ optStr lt ++
          "\x27 and \x27" ++ optStr rt ++ "\x27 at line " ++ natStr lineno))
  else if op = "and" ∨ op = "or" then
    if lt = some "bool" ∧ rt = some "bool" then .ok (some "bool")
    else
      .error (.semanticError
        ("Logical operator \x27" ++ op ++ "\x27 requires bool operands, got " ++
          optStr lt ++ " and " ++ optStr rt ++ " at line " ++ natStr lineno))
  else .ok lt

/-- `node.target.name` / `node.name.name` as `visit_Assignment` and
    `visit_FunCall` read it: a string for `Identifier` (and `FunctionDef`,
    whose `name` is also a string); any node without a `name` attribute
    raises `AttributeError`. (`FunCall.name` holds a node, not a string; the
    parser never produces it in these positions, and it is mapped to the
    attribute error as well.) -/
def nameAttr : Node → Except Exn String
  | .Identifier n _ => .ok n
  | .FunctionDef n _ _ _ => .ok n
  | n => .error (.attributeError
      ("\x27" ++ nodeClassName n ++ "\x27 object has no attribute \x27name\x27"))

/-- `getattr(p, "name", p)` for a declared parameter: parameter lists from
    the parser hold `Identifier` nodes; the fallback (the node itself used
    as the dict key) is modelled by the node's repr. -/
def paramName : Node → String
  | .Identifier n _ => n
  | .FunctionDef n _ _ _ => n
  | p => nodeRepr p

mutual

/-- `SemanticAnalyzer.analyze`: dispatch on the node class to the
    `visit_<ClassName>` method. Every visitor returns an optional type-tag
    string; the analyzer state is threaded explicitly. `ExprStatement` has
    no visitor, so its case is the dispatcher's `No visitor` exception. -/
def analyze : Node → AState → Except Exn (Option String × AState)
  | .Program stmts _, st => do
    let st1 ← analyzeEach stmts st
    .ok (none, st1)
  | .Block stmts _, st =>
    -- dispatch to visit_Block (inlined on the Block branch so the mutual
    -- recursion stays structural; `analyze_Block_eq_visitBlock` below
    -- checks the delegation)
    do
    let st1 ← analyzeEach stmts (pushScope st)
    .ok (none, popScope st1)
  | .Literal v _, st =>
    match v with
    | .nil => .ok (some "null", st)
    | .bool _ => .ok (some "bool", st)
    | .int _ => .ok (some "int", st)
    | .float _ => .ok (some "float", st)
    | .str _ => .ok (some "string", st)
  | .Identifier name ln, st => do
    let sym ← resolveSym st name ln
    match sym.type with
    | none => .ok (some "unknown", st)
    | some t => .ok (some t, st)
  | .Assignment target value ln, st => do
    let (vt, st1) ← analyze value st
    let nm ← nameAttr target
    match resolveSym st1 nm ln with
    | .error (.semanticError _) =>
      -- not declared yet: auto-declare in the innermost scope
      .ok (vt, declareSym st1 nm ⟨nm, vt, ln, []⟩)
    | .error e => .error e
    | .ok sym =>
      if vt = some "null" then
        .ok (vt, setSymType st1 nm (if optStrTruthy sym.type then sym.type else some "null"))
      else if sym.type = some "null" ∨ sym.type = none then
        .ok (vt, setSymType st1 nm vt)
      else
        -- dynamic retyping
        .ok (vt, setSymType st1 nm vt)
  | .BinOp op left right ln, st => do
    let (lt0, st1) ← analyze left st
    let (rt0, st2) ← analyze right st1
    -- propagate a known type onto an `unknown` operand (updating the
    -- underlying Symbol when that operand is an Identifier)
    let (lt1, st3) ←
      if lt0 = some "unknown" ∧ rt0 ≠ some "unknown" then
        match left with
        | .Identifier nm nln => do
          let _ ← resolveSym st2 nm nln
          pure ((rt0 : Option String), setSymType st2 nm rt0)
        | _ => pure (rt0, st2)
      else pure (lt0, st2)
    let (rt1, st4) ←
      if rt0 = some "unknown" ∧ lt1 ≠ some "unknown" then
        match right with
        | .Identifier nm nln => do
          let _ ← resolveSym st3 nm nln
          pure ((lt1 : Option String), setSymType st3 nm lt1)
        | _ => pure (lt1, st3)
      else pure (rt0, st3)
    -- both unknown and arithmetic: default to int
    let (lt2, rt2, st5) ←
      if lt1 = some "unknown" ∧ rt1 = some "unknown" ∧
          (op = "+" ∨ op = "-" ∨ op = "*" ∨ op = "/" ∨ op = "%") then do
        let stA ←
          match left with
          | .Identifier nm nln => do
            let _ ← resolveSym st4 nm nln
            pure (setSymType st4 nm (some "int"))
          | _ => pure st4
        let stB ←
          match right with
          | .Identifier nm nln => do
            let _ ← resolveSym stA nm nln
            pure (setSymType stA nm (some "int"))
          | _ => pure stA
        pure ((some "int" : Option String), (some "int" : Option String), stB)
      else pure (lt1, rt1, st4)
    let res ← binopTypeRules op lt2 rt2 ln
    .ok (res, st5)
  | .UnaryOp _ expr _, st => analyze expr st
  | .ExprStatement e ln, _ =>
    .error (.exception ("No visitor for " ++ nodeClassName (.ExprStatement e ln)))
  | .IfStatement cond tb eb _, st => do
    let (_, st1) ← analyze cond st
    let (_, st2) ← visitBlock tb st1
    match eb with
    | some e => do
      let (_, st3) ← visitBlock e st2
      .ok (none, st3)
    | none => .ok (none, st2)
  | .WhileStatement cond body _, st => do
    let (_, st1) ← analyze cond st
    let st2 := { st1 with loop_depth := st1.loop_depth + 1 }
    let (_, st3) ← visitBlock body st2
    .ok (none, { st3 with loop_depth := st3.loop_depth - 1 })
  | .ForStatement init cond upd body _, st => do
    let st1 := pushScope st
    let st2 ← match init with
      | some n => do let (_, s) ← analyze n st1; pure s
      | none => pure st1
    let st3 ← match cond with
      | some n => do let (_, s) ← analyze n st2; pure s
      | none => pure st2
    let st4 ← match upd with
      | some n => do let (_, s) ← analyze n st3; pure s
      | none => pure st3
    let st5 := { st4 with loop_depth := st4.loop_depth + 1 }
    let (_, st6) ← visitBlock body st5
    let st7 := { st6 with loop_depth := st6.loop_depth - 1 }
    .ok (none, popScope st7)
  | .FunctionDef name params body ln, st => do
    let st1 := declareSym st name ⟨name, some "function", ln, params⟩
    let st2 := { pushScope st1 with current_function := some name }
    let st3 := params.foldl (fun s p => declareSym s (paramName p) ⟨paramName p, none, ln, []⟩) st2
    let (_, st4) ← visitBlock body st3
    .ok (none, { popScope st4 with current_function := none })
  | .FunCall nameNode args ln, st => do
    let nm ← nameAttr nameNode
    let sym ← resolveSym st nm ln
    if sym.type ≠ some "function" then
      .error (.semanticError
        ("\x27" ++ nodeRepr nameNode ++ "\x27 is not a function (line " ++ natStr ln ++ ")"))
    else if args.length ≠ sym.params.length then
      .error (.semanticError
        ("Argument count mismatch calling " ++ nodeRepr nameNode ++ " at line " ++ natStr ln))
    else do
      let st1 ← analyzeEach args st
      .ok (none, st1)
  | .ReturnStatement v ln, st =>
    match st.current_function with
    | none => .error (.semanticError ("\x27return\x27 outside function at line " ++ natStr ln))
    | some _ =>
      match v with
      | some n => do
        let (_, st1) ← analyze n st
        .ok (none, st1)
      | none => .ok (none, st)
  | .ControlFlow kw ln, st =>
    let kwU := strUpper kw
    if st.loop_depth = 0 then
      .error (.semanticError ("\x27" ++ kwU ++ "\x27 used outside loop at line " ++ natStr ln))
    else if ¬(kwU = "BREAK" ∨ kwU = "CONTINUE") then
      .error (.semanticError ("Unknown control flow \x27" ++ kwU ++ "\x27 at line " ++ natStr ln))
    else .ok (none, st)
termination_by structural n => n

/-- `visit_Block`: push a scope and analyze `node.statements`; called on
    every statement body, so a non-`Block` argument hits the missing
    `statements` attribute. -/
def visitBlock : Node → AState → Except Exn (Option String × AState)
  | .Block stmts _, st => do
    let st1 ← analyzeEach stmts (pushScope st)
    .ok (none, popScope st1)
  | n, _ => .error (.attributeError
      ("\x27" ++ nodeClassName n ++ "\x27 object has no attribute \x27statements\x27"))
termination_by structural n => n

/-- The `for stmt in ...: self.analyze(stmt)` loops of `visit_Program`,
    `visit_Block` and `visit_FunCall` (return values discarded). -/
def analyzeEach : List Node → AState → Except Exn AState
  | [], st => .ok st
  | n :: rest, st => do
    let (_, st1) ← analyze n st
    analyzeEach rest st1
termination_by structural l => l

end

/-- The error of an analyzer run, if any (discards the threaded state, whose
    equality is irrelevant to the claims). -/
def analyzeErr? (p : Node) : Option Exn :=
  match analyze p initAState with
  | .ok _ => none
  | .error e => some e

/-- The type tag `analyze` computes for a node in a fresh analyzer, if the
    analysis succeeds. -/
def analyzeType? (p : Node) : Option (Option String) :=
  match analyze p initAState with
  | .ok (t, _) => some t
  | .error _ => none


/-! ## Bytecode lines -/

/-- One bytecode line: a label line `"NAME:"` (recognised by
    `endswith(":")`, name `instr[:-1]`), or an instruction line
    `"OP a b ..."` (dissected by `split()` into `parts[0]` and the
    operands). The generator only emits single-space-separated lines, so
    this structured form carries the same information as the text. -/
inductive Line where
  | label (name : String)
  | instr (op : String) (args : List String)
deriving DecidableEq, Repr

/-- The textual form of a line (for the VM's `f"Unknown instruction:
    {instr}"` message). -/
def lineStr : Line → String
  | .label n => n ++ ":"
  | .instr op args => String.intercalate " " (op :: args)

/-! ## Code generator (`compiler/stack_codegen.py`) -/

/-- The generator's mutable state: the main instruction list, the shared
    label counter, the loop stack of `(break_label, continue_label)` pairs
    (append/pop at the end, top = last), and the function-code buffer. -/
structure CodeGenSt where
  code : List Line
  label_count : Nat
  loop_stack : List (String × String)
  function_code : List Line

/-- `CodeGenerator()`. -/
def initGen : CodeGenSt :=
  { code := [], label_count := 0, loop_stack := [], function_code := [] }

/-- `new_label(prefix)`: bump the shared counter and render
    `f"{prefix}{count}"`. -/
def newLabel (g : CodeGenSt) (pre : String) : String × CodeGenSt :=
  (pre ++ natStr (g.label_count + 1), { g with label_count := g.label_count + 1 })

/-- `emit` / `emit_label`: append to the current instruction list. -/
def emitL (g : CodeGenSt) (l : Line) : CodeGenSt := { g with code := g.code ++ [l] }

/-- The operator map of `gen_BinOp`. -/
def opmap : String → Option String
  | "+" => some "ADD"
  | "-" => some "SUB"
  | "*" => some "MUL"
  | "/" => some "DIV"
  | "%" => some "MOD"
  | "<" => some "LT"
  | ">" => some "GT"
  | "<=" => some "LE"
  | ">=" => some "GE"
  | "==" => some "EQ"
  | "!=" => some "NEQ"
  | "&&" => some "AND"
  | "||" => some "OR"
  | _ => none

mutual

/-- `CodeGenerator.generate`: dispatch on the node class to
    `gen_<ClassName>` (all fifteen classes have a generator method). -/
def generate : Node → CodeGenSt → Except Exn CodeGenSt
  | .Literal v _, g => .ok (emitL g (.instr "PUSH" [pyStr v]))
  | .Identifier name _, g => .ok (emitL g (.instr "LOAD" [name]))
  | .Assignment target value _, g => do
    let g1 ← generate value g
    let nm ← nameAttr target
    .ok (emitL g1 (.instr "STORE" [nm]))
  | .BinOp op left right _, g => do
    let g1 ← generate left g
    let g2 ← generate right g1
    match opmap op with
    | some o => .ok (emitL g2 (.instr o []))
    | none => .error (.keyError op)   -- opmap[node.op] raises KeyError
  | .UnaryOp op expr _, g => do
    let g1 ← generate expr g
    if op = "-" then .ok (emitL g1 (.instr "NEG" [])) else .ok g1
  | .ExprStatement expr _, g => do
    let g1 ← generate expr g
    .ok (emitL g1 (.instr "POP" []))
  | .Program stmts _, g => do
    -- main code: every top-level statement that is not a FunctionDef
    let g1 ← genMainStmts stmts g
    let g2 := emitL g1 (.instr "HALT" [])
    -- then the FunctionDefs, whose code lands in function_code
    let g3 ← genFuncStmts stmts g2
    -- append the function code to the main code
    .ok { g3 with code := g3.code ++ g3.function_code }
  | .Block stmts _, g => genStmtList stmts g
  | .IfStatement cond tb eb _, g => do
    let (elseL, gA) := newLabel g "ELSE"
    let (endL, gB) := newLabel gA "ENDIF"
    let g1 ← generate cond gB
    let g2 := emitL g1 (.instr "JZ" [elseL])
    let g3 ← generate tb g2
    let g4 := emitL g3 (.instr "JMP" [endL])
    let g5 := emitL g4 (.label elseL)
    let g6 ← optGen eb g5
    .ok (emitL g6 (.label endL))
  | .WhileStatement cond body _, g => do
    let (startL, gA) := newLabel g "WHILE_START"
    let (endL, gB) := newLabel gA "WHILE_END"
    let g0 := { gB with loop_stack := gB.loop_stack ++ [(endL, startL)] }
    let g1 := emitL g0 (.label startL)
    let g2 ← generate cond g1
    let g3 := emitL g2 (.instr "JMP_IF_FALSE" [endL])
    let g4 ← generate body g3
    let g5 := emitL g4 (.instr "JMP" [startL])
    let g6 := emitL g5 (.label endL)
    .ok { g6 with loop_stack := g6.loop_stack.dropLast }
  | .ForStatement init cond upd body _, g => do
    let gI ← optGen init g
    let (startL, gA) := newLabel gI "FOR_START"
    let (endL, gB) := newLabel gA "FOR_END"
    let (updL, gC) := newLabel gB "FOR_UPDATE"
    let g0 := { gC with loop_stack := gC.loop_stack ++ [(endL, updL)] }
    let g1 := emitL g0 (.label startL)
    let g2 ← forCondGen cond endL g1
    let g3 ← generate body g2
    let g4 := emitL g3 (.label updL)
    let g5 ← optGen upd g4
    let g6 := emitL g5 (.instr "JMP" [startL])
    let g7 := emitL g6 (.label endL)
    .ok { g7 with loop_stack := g7.loop_stack.dropLast }
  | .FunctionDef name params body _, g => do
    -- write the function's code into a fresh buffer
    let old_code := g.code
    let gA := { g with code := [] }
    let gB := emitL gA (.label ("FUNC_" ++ name))
    -- take the parameters from the stack, in reverse order
    let gC := params.reverse.foldl
      (fun acc p => emitL acc (.instr "STORE" [paramName p])) gB
    -- the function body (`for stmt in node.body.statements`)
    let gD ← match body with
      | .Block stmts _ => genStmtList stmts gC
      | b => .error (.attributeError
          ("\x27" ++ nodeClassName b ++ "\x27 object has no attribute \x27statements\x27"))
    -- default return
    let gE := emitL (emitL gD (.instr "PUSH" ["0"])) (.instr "RET" [])
    -- save the function code and restore the old buffer
    .ok { gE with function_code := gE.function_code ++ gE.code, code := old_code }
  | .FunCall nameNode args _, g => do
    let g1 ← genStmtList args g
    let nm ← nameAttr nameNode
    .ok (emitL g1 (.instr "CALL" ["FUNC_" ++ nm, natStr args.length]))
  | .ReturnStatement v _, g => do
    let g1 ← returnValGen v g
    .ok (emitL g1 (.instr "RET" []))
  | .ControlFlow kw ln, g =>
    match g.loop_stack.getLast? with
    | none => .error (.exception (kw ++ " used outside loop at line " ++ natStr ln))
    | some (breakL, contL) =>
      if kw = "break" then .ok (emitL g (.instr "JMP" [breakL]))
      else .ok (emitL g (.instr "JMP" [contL]))
termination_by structural n => n

/-- `if node.x: self.generate(node.x)` for an optional child (the else
    branch of `gen_IfStatement`, the init and update clauses of
    `gen_ForStatement`): generate it when present, else leave the state. -/
def optGen : Option Node → CodeGenSt → Except Exn CodeGenSt
  | none, g => .ok g
  | some n, g => generate n g
termination_by structural o => o

/-- The condition clause of `gen_ForStatement`: when present, generate it
    and emit the conditional exit jump. -/
def forCondGen : Option Node → String → CodeGenSt → Except Exn CodeGenSt
  | none, _, g => .ok g
  | some c, endL, g => do
    let gc ← generate c g
    .ok (emitL gc (.instr "JMP_IF_FALSE" [endL]))
termination_by structural o => o

/-- The value of `gen_ReturnStatement`: the expression when present, else
    `PUSH 0`. -/
def returnValGen : Option Node → CodeGenSt → Except Exn CodeGenSt
  | some n, g => generate n g
  | none, g => .ok (emitL g (.instr "PUSH" ["0"]))
termination_by structural o => o

/-- The statement loop of `gen_Block`, of a function body, and the argument
    loop of `gen_FunCall`. -/
def genStmtList : List Node → CodeGenSt → Except Exn CodeGenSt
  | [], g => .ok g
  | n :: rest, g => do
    let g1 ← generate n g
    genStmtList rest g1
termination_by structural l => l

/-- `gen_Program`'s first loop: generate every statement that is not a
    `FunctionDef`. -/
def genMainStmts : List Node → CodeGenSt → Except Exn CodeGenSt
  | [], g => .ok g
  | n :: rest, g => do
    let g1 ← if isFunctionDef n then pure g else generate n g
    genMainStmts rest g1
termination_by structural l => l

/-- `gen_Program`'s second loop: generate every `FunctionDef`. -/
def genFuncStmts : List Node → CodeGenSt → Except Exn CodeGenSt
  | [], g => .ok g
  | n :: rest, g => do
    let g1 ← if isFunctionDef n then generate n g else pure g
    genFuncStmts rest g1
termination_by structural l => l

end

/-- `CodeGenerator().generate(program)`: the returned bytecode list. -/
def generateProgram (p : Node) : Except Exn (List Line) :=
  (generate p initGen).map (·.code)

deriving instance DecidableEq for Except

/-! ## Virtual machine (`compiler/stack_interpreter.py`) -/

/-- `isinstance(v, (int, float))`: Python `bool` is a subclass of `int`. -/
def isNumV : PyVal → Bool
  | .int _ | .float _ | .bool _ => true
  | _ => false

/-- `type(v).__name__` for the runtime-error messages. -/
def typeName : PyVal → String
  | .int _ => "int"
  | .float _ => "float"
  | .str _ => "str"
  | .bool _ => "bool"
  | .nil => "NoneType"

/-- The numeric value of an int/float/bool (callers guard with `isNumV`). -/
def toRatV : PyVal → Rat
  | .int n => (n : Rat)
  | .float q => q
  | .bool b => if b then 1 else 0
  | _ => 0

/-- The integer value of an int/bool. -/
def toIntV : PyVal → Int
  | .int n => n
  | .bool b => if b then 1 else 0
  | _ => 0

def isFloatV : PyVal → Bool
  | .float _ => true
  | _ => false

/-- Python `+`/`-`/`*` on two numbers: float result when either side is a
    float, int result otherwise (bools act as 0/1). -/
def numBin (f : Int → Int → Int) (g : Rat → Rat → Rat) (a b : PyVal) : PyVal :=
  if isFloatV a || isFloatV b then .float (g (toRatV a) (toRatV b))
  else .int (f (toIntV a) (toIntV b))

/-- Python `*`: numbers multiply; a string times an int repeats it;
    anything else is a `TypeError`. -/
def pyMul (a b : PyVal) : Except Exn PyVal :=
  if isNumV a && isNumV b then .ok (numBin (· * ·) (· * ·) a b)
  else
    match a, b with
    | .str s, .int n => .ok (.str (String.join (List.replicate n.toNat s)))
    | .str s, .bool bb => .ok (.str (if bb then s else ""))
    | .int n, .str s => .ok (.str (String.join (List.replicate n.toNat s)))
    | .bool bb, .str s => .ok (.str (if bb then s else ""))
    | _, _ => .error (.typeError
        ("cannot multiply \x27" ++ typeName a ++ "\x27 and \x27" ++ typeName b ++ "\x27"))

/-- Python `/`: true division, always a float; division by zero raises. -/
def pyDiv (a b : PyVal) : Except Exn PyVal :=
  if isNumV a && isNumV b then
    if toRatV b = 0 then .error (.zeroDivisionError "division by zero")
    else .ok (.float (toRatV a / toRatV b))
  else .error (.typeError
      ("unsupported operand type(s) for /: \x27" ++ typeName a ++ "\x27 and \x27" ++
        typeName b ++ "\x27"))

/-- Python `%` on numbers: `a - b * (a // b)` with floor division, so the
    result takes the divisor's sign. (Python's printf-formatting for a
    string left operand is not modelled: the analyzer rejects `%` on
    non-ints and no generated-and-executed program reaches it; the case is
    collapsed to the `TypeError` of the unsupported pairs.) -/
def pyMod (a b : PyVal) : Except Exn PyVal :=
  if isNumV a && isNumV b then
    if toRatV b = 0 then .error (.zeroDivisionError "integer division or modulo by zero")
    else if isFloatV a || isFloatV b then
      .ok (.float (toRatV a - toRatV b * ((Rat.floor (toRatV a / toRatV b) : Int) : Rat)))
    else .ok (.int (Int.fmod (toIntV a) (toIntV b)))
  else .error (.typeError
      ("unsupported operand type(s) for %: \x27" ++ typeName a ++ "\x27 and \x27" ++
        typeName b ++ "\x27"))

/-- Python's ordering comparisons: numbers compare by value, strings
    lexicographically; mixed kinds raise `TypeError`. -/
def pyCmp (opName : String) (a b : PyVal) : Except Exn Ordering :=
  if isNumV a && isNumV b then .ok (compare (toRatV a) (toRatV b))
  else
    match a, b with
    | .str s, .str t => .ok (compare s t)
    | _, _ => .error (.typeError
        ("\x27" ++ opName ++ "\x27 not supported between instances of \x27" ++
          typeName a ++ "\x27 and \x27" ++ typeName b ++ "\x27"))

/-- Python `==` on this value universe (total): numbers by value (bools are
    0/1, so `True == 1`), strings by content, `None` only to `None`; mixed
    kinds are unequal. -/
def pyEq (a b : PyVal) : Bool :=
  if isNumV a && isNumV b then toRatV a == toRatV b
  else
    match a, b with
    | .str s, .str t => s == t
    | .nil, .nil => true
    | _, _ => false

/-- Python truthiness: zero numbers, the empty string, `False` and `None`
    are falsy. -/
def pyTruthy : PyVal → Bool
  | .int n => n ≠ 0
  | .float q => q ≠ 0
  | .str s => s ≠ ""
  | .bool b => b
  | .nil => false

/-! ### `PUSH` operand re-parsing -/

/-- Python `str.isdigit` for the strings this pipeline builds: non-empty
    and all (ASCII) digits. -/
def isDigitStr (s : String) : Bool := s ≠ "" && s.data.all Char.isDigit

/-- Value of a digit string. -/
def strToNat (s : String) : Nat := s.data.foldl (fun acc c => acc * 10 + (c.toNat - 48)) 0

/-- `value.replace(".", "", 1)`: drop the first `.` if any. -/
def removeFirstDot : List Char → List Char
  | [] => []
  | c :: r => if c = '.' then r else c :: removeFirstDot r

/-- Split at the first `.` (the operand has exactly one when this is
    reached from the float branch). -/
def splitAtDot : List Char → List Char × List Char
  | [] => ([], [])
  | c :: r =>
    if c = '.' then ([], r)
    else
      let (a, b) := splitAtDot r
      (c :: a, b)

/-- `float(value)` for a decimal literal `intpart.fracpart`, as an exact
    rational. -/
def parseFloatStr (v : String) : Rat :=
  let (ip, fp) := splitAtDot v.data
  (strToNat ⟨ip⟩ : Rat) + (strToNat ⟨fp⟩ : Rat) / ((10 : Rat) ^ fp.length)

/-- `value.strip('"')`: remove every leading and trailing double quote. -/
def stripDQ (s : String) : String :=
  ⟨((s.data.dropWhile (· = '"')).reverse.dropWhile (· = '"')).reverse⟩

/-- The `PUSH` operand re-parse: all digits → int; digits once a `.` is
    removed → float; wrapped in double quotes → the quote-stripped string;
    otherwise the raw text. -/
def parsePush (v : String) : PyVal :=
  if isDigitStr v then .int (strToNat v)
  else if isDigitStr ⟨removeFirstDot v.data⟩ then .float (parseFloatStr v)
  else if v.startsWith "\"" && v.endsWith "\"" then .str (stripDQ v)
  else .str v

/-! ### Machine state and the execution loop -/

/-- The `StackMachine` state. The operand stack and the call stack keep
    their top at the head (Python appends and pops at the end of its
    lists; both are pure LIFO uses). -/
structure Machine where
  bytecode : List Line
  stack : List PyVal
  vars : List (String × PyVal)
  ip : Nat
  labels : List (String × Nat)
  call_stack : List Nat
deriving DecidableEq, Repr

/-- The enumerate-and-record loop of `_map_labels`, with the running
    index explicit. -/
def mapLabelsGo : List Line → Nat → List (String × Nat) → List (String × Nat)
  | [], _, labs => labs
  | l :: rest, i, labs =>
    mapLabelsGo rest (i + 1)
      (match l with
       | .label n => dictSet labs n i
       | _ => labs)

/-- `_map_labels`: every label's index (later duplicates overwrite). -/
def mapLabels (bc : List Line) : List (String × Nat) := mapLabelsGo bc 0 []

/-- `StackMachine(bytecode)`: empty stacks and variables, IP 0, labels
    pre-resolved. -/
def initMachine (bc : List Line) : Machine :=
  { bytecode := bc, stack := [], vars := [], ip := 0, labels := mapLabels bc, call_stack := [] }

/-- Result of one dispatch: continue, terminate returning the variables, or
    a raised exception. -/
inductive StepRes where
  | cont (m : Machine)
  | halt (vars : List (String × PyVal))
  | err (e : Exn)
deriving DecidableEq, Repr

/-- `self.stack.pop()`. -/
def popV (m : Machine) : Except Exn (PyVal × Machine) :=
  match m.stack with
  | [] => .error (.indexError "pop from empty list")
  | v :: rest => .ok (v, { m with stack := rest })

/-- `self.labels[label]`. -/
def labelIx (m : Machine) (l : String) : Except Exn Nat :=
  match dictGet? m.labels l with
  | some i => .ok i
  | none => .error (.keyError l)

/-- Lift an `Except` into a step. -/
def stepOf (r : Except Exn Machine) : StepRes :=
  match r with
  | .ok m => .cont m
  | .error e => .err e

/-- The body of `StackMachine.run`'s loop for one fetched line, after the
    `self.ip += 1` increment (`m` is the post-increment state). The branch
    order mirrors the Python `if`/`elif` chain: label skip, `HALT`, stack
    operations, the arithmetic/comparison/logic group, jumps, `CALL`,
    `RET`, and the unknown-opcode failure. `NEQ`, `NEG` and `POP` are not
    in the dispatch. -/
def execLine (line : Line) (m : Machine) : StepRes :=
  match line with
  | .label _ => .cont m
  | .instr op args =>
    if op = "HALT" then .halt m.vars
    else if op = "PUSH" then
      let value := String.intercalate " " args
      .cont { m with stack := parsePush value :: m.stack }
    else if op = "LOAD" then
      match args with
      | v :: _ =>
        .cont { m with stack := (match dictGet? m.vars v with
                                 | some x => x
                                 | none => .int 0) :: m.stack }
      | [] => .err (.indexError "list index out of range")
    else if op = "STORE" then
      match args with
      | v :: _ =>
        stepOf do
          let (x, m1) ← popV m
          .ok { m1 with vars := dictSet m1.vars v x }
      | [] => .err (.indexError "list index out of range")
    else if op = "ADD" ∨ op = "SUB" ∨ op = "MUL" ∨ op = "DIV" ∨ op = "MOD" ∨
        op = "GE" ∨ op = "GT" ∨ op = "LE" ∨ op = "LT" ∨ op = "EQ" ∨ op = "NE" ∨
        op = "AND" ∨ op = "OR" then
      stepOf do
        let (b, m1) ← popV m
        let (a, m2) ← popV m1
        if op = "ADD" then
          if ¬(isNumV a && isNumV b) then
            .error (.runtimeError ("Cannot add " ++ typeName a ++ " and " ++ typeName b))
          else .ok { m2 with stack := numBin (· + ·) (· + ·) a b :: m2.stack }
        else if op = "SUB" then
          if ¬(isNumV a && isNumV b) then
            .error (.runtimeError ("Cannot subtract " ++ typeName a ++ " and " ++ typeName b))
          else .ok { m2 with stack := numBin (· - ·) (· - ·) a b :: m2.stack }
        else if op = "MUL" then do
          let v ← pyMul a b
          .ok { m2 with stack := v :: m2.stack }
        else if op = "DIV" then do
          let v ← pyDiv a b
          .ok { m2 with stack := v :: m2.stack }
        else if op = "MOD" then do
          let v ← pyMod a b
          .ok { m2 with stack := v :: m2.stack }
        else if op = "GE" then do
          let c ← pyCmp ">=" a b
          .ok { m2 with stack := .bool (c ≠ .lt) :: m2.stack }
        else if op = "GT" then do
          let c ← pyCmp ">" a b
          .ok { m2 with stack := .bool (c = .gt) :: m2.stack }
        else if op = "LE" then do
          let c ← pyCmp "<=" a b
          .ok { m2 with stack := .bool (c ≠ .gt) :: m2.stack }
        else if op = "LT" then do
          let c ← pyCmp "<" a b
          .ok { m2 with stack := .bool (c = .lt) :: m2.stack }
        else if op = "EQ" then
          .ok { m2 with stack := .bool (pyEq a b) :: m2.stack }
        else if op = "NE" then
          .ok { m2 with stack := .bool (!pyEq a b) :: m2.stack }
        else if op = "AND" then
          .ok { m2 with stack := (if pyTruthy a then b else a) :: m2.stack }
        else
          -- op = "OR"
          .ok { m2 with stack := (if pyTruthy a then a else b) :: m2.stack }
    else if op = "JZ" then
      match args with
      | l :: _ =>
        stepOf do
          let (v, m1) ← popV m
          if ¬pyTruthy v then
            let i ← labelIx m1 l
            .ok { m1 with ip := i }
          else .ok m1
      | [] => .err (.indexError "list index out of range")
    else if op = "JMP" then
      match args with
      | l :: _ =>
        stepOf do
          let i ← labelIx m l
          .ok { m with ip := i }
      | [] => .err (.indexError "list index out of range")
    else if op = "JMP_IF_FALSE" then
      match args with
      | l :: _ =>
        stepOf do
          let (v, m1) ← popV m
          if ¬pyTruthy v then
            let i ← labelIx m1 l
            .ok { m1 with ip := i }
          else .ok m1
      | [] => .err (.indexError "list index out of range")
    else if op = "CALL" then
      match args with
      | l :: rest =>
        stepOf do
          -- `int(parts[2]) if len(parts) > 2 else 0`; the count is unused
          match rest with
          | [] => pure ()
          | s :: _ => if isDigitStr s then pure () else .error (.valueError s)
          let i ← labelIx m l
          .ok { m with call_stack := m.ip :: m.call_stack, ip := i }
      | [] => .err (.indexError "list index out of range")
    else if op = "RET" then
      match m.call_stack with
      | [] => .halt m.vars   -- return from the main program
      | i :: rest => .cont { m with ip := i, call_stack := rest }
    else .err (.exception ("Unknown instruction: " ++ lineStr line))

/-- One iteration of the `run` loop: exit when the IP runs off the end,
    otherwise fetch, increment the IP, and dispatch. -/
def step (m : Machine) : StepRes :=
  match m.bytecode[m.ip]? with
  | none => .halt m.vars
  | some line => execLine line { m with ip := m.ip + 1 }

/-- A finished run: the variable map at termination, a raised exception,
    or out of fuel (the Python loop may not terminate). -/
inductive RunRes where
  | done (vars : List (String × PyVal))
  | err (e : Exn)
  | fuelOut
deriving DecidableEq, Repr

/-- `StackMachine.run`, fueled. -/
def run : Nat → Machine → RunRes
  | 0, _ => .fuelOut
  | fuel + 1, m =>
    match step m with
    | .cont m' => run fuel m'
    | .halt vs => .done vs
    | .err e => .err e

/-- Generate and run a whole program, as `main.run_pipeline` does (the
    driver also runs codegen and the VM when the analyzer failed, since it
    catches `SemanticError` and continues). -/
def runProgram (fuel : Nat) (p : Node) : Except Exn RunRes :=
  (generateProgram p).map fun bc => run fuel (initMachine bc)




/-! ## Concrete programs from the claims

The ASTs below are the parse results of the quoted sources, built by the
grammar actions of `compiler/parser.py` (notably: `p_break_statement`
stores the uppercase keyword `'BREAK'`; string-literal values keep their
quotes, as the lexer left them; every token of these one-line programs is
on line 1). -/

/-- `for (i = 0; i < 10; i = i + 1) { if (i == 3) { break; } } r = i;` -/
def c1prog : Node :=
  .Program
    [.ForStatement
        (some (.Assignment (.Identifier "i" 1) (.Literal (.int 0) 1) 1))
        (some (.BinOp "<" (.Identifier "i" 1) (.Literal (.int 10) 1) 1))
        (some (.Assignment (.Identifier "i" 1)
          (.BinOp "+" (.Identifier "i" 1) (.Literal (.int 1) 1) 1) 1))
        (.Block [.IfStatement (.BinOp "==" (.Identifier "i" 1) (.Literal (.int 3) 1) 1)
          (.Block [.ControlFlow "BREAK" 1] 1) none 1] 1)
        1,
     .Assignment (.Identifier "r" 1) (.Identifier "i" 1) 1] 0

/-- `x = 1 != 2;` — a semantically valid program with a `!=` comparison. -/
def c2prog : Node :=
  .Program
    [.Assignment (.Identifier "x" 1)
      (.BinOp "!=" (.Literal (.int 1) 1) (.Literal (.int 2) 1) 1) 1] 0

/-- `x = 1 < 2;` — a numeric relational comparison. -/
def c3prog : Node :=
  .Program
    [.Assignment (.Identifier "x" 1)
      (.BinOp "<" (.Literal (.int 1) 1) (.Literal (.int 2) 1) 1) 1] 0

/-- `x = 1 && 2;` — a logical operator on non-bool operands. -/
def c4prog : Node :=
  .Program
    [.Assignment (.Identifier "x" 1)
      (.BinOp "&&" (.Literal (.int 1) 1) (.Literal (.int 2) 1) 1) 1] 0

/-- `x = "foo"; y = x % 2;` (the string literal's value keeps its quotes). -/
def c6prog : Node :=
  .Program
    [.Assignment (.Identifier "x" 1) (.Literal (.str "\"foo\"") 1) 1,
     .Assignment (.Identifier "y" 1)
       (.BinOp "%" (.Identifier "x" 1) (.Literal (.int 2) 1) 1) 1] 0

/-- `if (1) x = 2;` — an `if` whose body is a single non-block statement. -/
def c10ifProg : Node :=
  .Program
    [.IfStatement (.Literal (.int 1) 1)
      (.Assignment (.Identifier "x" 1) (.Literal (.int 2) 1) 1) none 1] 0

/-- `while (1) x = 2;` — a `while` with a single non-block body. -/
def c10whileProg : Node :=
  .Program
    [.WhileStatement (.Literal (.int 1) 1)
      (.Assignment (.Identifier "x" 1) (.Literal (.int 2) 1) 1) 1] 0

/-- `for (;;) x = 2;` — a `for` with a single non-block body. -/
def c10forProg : Node :=
  .Program
    [.ForStatement none none none
      (.Assignment (.Identifier "x" 1) (.Literal (.int 2) 1) 1) 1] 0

/-- `x = 1; func f() {}` — top-level statements of a program with both main
    code and a function. -/
def c7stmts : List Node :=
  [.Assignment (.Identifier "x" 1) (.Literal (.int 1) 1) 1,
   .FunctionDef "f" [] (.Block [] 1) 1]

/-- The generator state `gen_Program` returns for `Program c7stmts`. -/
def c7gen : CodeGenSt :=
  { code := [.instr "PUSH" ["1"], .instr "STORE" ["x"], .instr "HALT" [],
      .label "FUNC_f", .instr "PUSH" ["0"], .instr "RET" []],
    label_count := 0,
    loop_stack := [],
    function_code := [.label "FUNC_f", .instr "PUSH" ["0"], .instr "RET" []] }

deriving instance DecidableEq for CodeGenSt

/-! ## Layout and reachability notions for the `HALT` separation claim -/

/-- The label name of a label line. -/
def labelName? : Line → Option String
  | .label n => some n
  | _ => none

/-- All label names occurring in a code chunk, in order. -/
def labelsIn (c : List Line) : List String := c.filterMap labelName?

/-- The target of a `JMP`/`JZ`/`JMP_IF_FALSE` instruction (the operands the
    VM jumps through; `CALL` is deliberately not included). -/
def jmpTarget? : Line → Option String
  | .instr op (t :: _) =>
    if op = "JMP" ∨ op = "JZ" ∨ op = "JMP_IF_FALSE" then some t else none
  | _ => none

/-- All jump targets occurring in a code chunk. -/
def jmpTargets (c : List Line) : List String := c.filterMap jmpTarget?

/-- Both labels of every loop-stack entry. -/
def loopLabels (ls : List (String × String)) : List String :=
  ls.foldr (fun p acc => p.1 :: p.2 :: acc) []

/-- The prefixes `new_label` is called with. -/
def labelPrefixes : List String :=
  ["ELSE", "ENDIF", "WHILE_START", "WHILE_END", "FOR_START", "FOR_END", "FOR_UPDATE"]

/-- A counter-generated label, `f"{prefix}{count}"`. -/
def ctrLabel (p : String) (k : Nat) : String := p ++ natStr k

/-- Numeric value of a decimal digit character. -/
def digitVal (c : Char) : Nat := c.toNat - 48

/-- The number a digit list denotes (most significant first). -/
def decDigits (l : List Char) : Nat := l.foldl (fun acc c => acc * 10 + digitVal c) 0

mutual

/-- No `Program` node occurs anywhere inside `n` (the parser only builds
    `Program` at the root; the layout analysis is about such trees). -/
def progFree : Node → Bool
  | .Program .. => false
  | .Block stmts _ => progFreeList stmts
  | .Literal .. => true
  | .Identifier .. => true
  | .BinOp _ l r _ => progFree l && progFree r
  | .UnaryOp _ e _ => progFree e
  | .Assignment t v _ => progFree t && progFree v
  | .ExprStatement e _ => progFree e
  | .IfStatement c tb eb _ => progFree c && progFree tb && progFreeOpt eb
  | .WhileStatement c b _ => progFree c && progFree b
  | .ForStatement i c u b _ => progFreeOpt i && progFreeOpt c && progFreeOpt u && progFree b
  | .FunctionDef _ ps b _ => progFreeList ps && progFree b
  | .FunCall nm args _ => progFree nm && progFreeList args
  | .ReturnStatement v _ => progFreeOpt v
  | .ControlFlow .. => true
termination_by structural n => n

def progFreeList : List Node → Bool
  | [] => true
  | n :: rest => progFree n && progFreeList rest
termination_by structural l => l

def progFreeOpt : Option Node → Bool
  | none => true
  | some n => progFree n
termination_by structural o => o

end

/-- The well-formedness of an emitted code chunk, relative to the label
    counter before (`c`) and after (`c'`) and the surrounding loop stack:
    main-buffer labels are fresh counter labels; function-buffer labels are
    fresh counter labels or `FUNC_…` labels; each counter label occurs at
    most once over both buffers; and every jump in the main buffer targets
    a label of the chunk or a label of the surrounding loop stack. -/
structure ChunkOK (c c' : Nat) (ls : List (String × String)) (Δ Δf : List Line) : Prop where
  labMain : ∀ l ∈ labelsIn Δ,
    ∃ p k, p ∈ labelPrefixes ∧ c < k ∧ k ≤ c' ∧ l = ctrLabel p k
  labFunc : ∀ l ∈ labelsIn Δf,
    (∃ p k, p ∈ labelPrefixes ∧ c < k ∧ k ≤ c' ∧ l = ctrLabel p k) ∨ ∃ nm, l = "FUNC_" ++ nm
  ctrOnce : ∀ p k, p ∈ labelPrefixes →
    (labelsIn Δ ++ labelsIn Δf).count (ctrLabel p k) ≤ 1
  jmpsOK : ∀ t ∈ jmpTargets Δ, t ∈ labelsIn Δ ∨ t ∈ loopLabels ls

/-- What one `generate` call does to the generator state: the counter only
    grows, the loop stack is restored, and both buffers grow by well-formed
    chunks. -/
def GenOK (g g' : CodeGenSt) : Prop :=
  g.label_count ≤ g'.label_count ∧
  g'.loop_stack = g.loop_stack ∧
  ∃ Δ Δf, g'.code = g.code ++ Δ ∧ g'.function_code = g.function_code ++ Δf ∧
    ChunkOK g.label_count g'.label_count g.loop_stack Δ Δf

/-- As `GenOK`, but with an untouched main buffer (the shape of
    `gen_FunctionDef` and of `gen_Program`'s second loop). -/
def GenOKF (g g' : CodeGenSt) : Prop :=
  g.label_count ≤ g'.label_count ∧
  g'.loop_stack = g.loop_stack ∧
  g'.code = g.code ∧
  ∃ Δf, g'.function_code = g.function_code ++ Δf ∧
    ChunkOK g.label_count g'.label_count g.loop_stack [] Δf

/-- Whether the instruction the IP points at is a `CALL`. -/
def isCallAt (m : Machine) : Bool :=
  match m.bytecode[m.ip]? with
  | some (.instr "CALL" _) => true
  | _ => false

/-- Machine states reachable from `m0` without ever executing a `CALL`
    instruction. -/
inductive ReachNC (m0 : Machine) : Machine → Prop where
  | refl : ReachNC m0 m0
  | step {m m' : Machine} : ReachNC m0 m → isCallAt m = false → step m = .cont m' →
      ReachNC m0 m'

/-- Every jump instruction located in the first `H` lines resolves, through
    the label table of the whole program, to an index below `H`. -/
def MainBounded (code : List Line) (H : Nat) : Prop :=
  ∀ i line t, i < H → code[i]? = some line → jmpTarget? line = some t →
    ∃ j, j < H ∧ dictGet? (mapLabels code) t = some j

/-- The function-entry preamble state of `gen_FunctionDef`: fresh buffer,
    `FUNC_` label, parameter stores. -/
def funcEntrySt (g : CodeGenSt) (nm : String) (ps : List Node) : CodeGenSt :=
  ps.reverse.foldl (fun acc p => emitL acc (.instr "STORE" [paramName p]))
    (emitL { g with code := [] } (.label ("FUNC_" ++ nm)))

/-! # Theorems -/

set_option maxHeartbeats 2000000
set_option maxRecDepth 8000

/-- The `analyze` dispatcher on a `Block` is exactly `visit_Block`. -/
theorem analyze_Block_eq_visitBlock (stmts : List Node) (ln : Nat) (st : AState) :
    analyze (.Block stmts ln) st = visitBlock (.Block stmts ln) st := rfl

/-- C1. The claim asserts scenario 4 ends with `r = 3` because `break`
    jumps to the loop's break label. The code does neither: (1) the
    analyzer rejects the program — the `for` scope holding `i` is popped
    before `r = i;` — and (2) the driver continues past that error, and the
    generated code runs `break` to the *continue* label (`FOR_UPDATE3`),
    because the parser stored the keyword `'BREAK'` while `gen_ControlFlow`
    compares it with `"break"`; the loop therefore runs to completion and
    the final variables are `i = 10, r = 10`, not `r = 3`. The third
    conjunct isolates the mechanism: whenever the loop stack is non-empty,
    generating a `ControlFlow` node whose keyword is `'BREAK'` emits a jump
    to the continue label of the loop-stack top. -/
theorem c1_break_scenario :
    analyzeErr? c1prog = some (.semanticError "Use of undefined variable \x27i\x27 at line 1")
    ∧ runProgram 400 c1prog = .ok (.done [("i", .int 10), ("r", .int 10)])
    ∧ (∀ (g : CodeGenSt) (bl cl : String) (ln : Nat),
        g.loop_stack.getLast? = some (bl, cl) →
        generate (.ControlFlow "BREAK" ln) g = .ok (emitL g (.instr "JMP" [cl]))) := by
  refine ⟨by decide, by decide, ?_⟩
  intro g bl cl ln h
  have hred : generate (.ControlFlow "BREAK" ln) g =
      match g.loop_stack.getLast? with
      | none => .error (.exception ("BREAK" ++ " used outside loop at line " ++ natStr ln))
      | some (breakL, contL) =>
        if ("BREAK" : String) = "break" then .ok (emitL g (.instr "JMP" [breakL]))
        else .ok (emitL g (.instr "JMP" [contL])) := rfl
  rw [hred, h]
  rfl

/-- Witness for the hypothesis-bearing conjunct of `c1_break_scenario`,
    instantiated at a generator state whose loop-stack top is
    `("FOR_END2", "FOR_UPDATE3")`. -/
theorem c1_break_scenario_witness :
    generate (.ControlFlow "BREAK" 1)
      { code := [], label_count := 3,
        loop_stack := [("FOR_END2", "FOR_UPDATE3")], function_code := [] }
    = .ok (emitL
      { code := [], label_count := 3,
        loop_stack := [("FOR_END2", "FOR_UPDATE3")], function_code := [] }
      (.instr "JMP" ["FOR_UPDATE3"])) :=
  c1_break_scenario.2.2 _ "FOR_END2" "FOR_UPDATE3" 1 rfl

/-- C2. The claim asserts the generator's map sends `!=` to an opcode the
    VM recognizes. It does not: `opmap` sends `!=` to `NEQ`, while the VM's
    dispatch knows only `NE`, so running the semantically valid program
    `x = 1 != 2;` aborts on the unknown-opcode path with
    `Unknown instruction: NEQ` instead of pushing `1 != 2`. -/
theorem c2_neq_unknown_opcode :
    opmap "!=" = some "NEQ"
    ∧ analyzeErr? c2prog = none
    ∧ runProgram 10 c2prog = .ok (.err (.exception "Unknown instruction: NEQ"))
    ∧ (∀ (m : Machine), execLine (.instr "NEQ" []) m
        = .err (.exception "Unknown instruction: NEQ")) := by
  refine ⟨rfl, by decide, by decide, fun m => rfl⟩

/-- C3. The claim asserts numeric `< <= > >= == !=` comparisons get result
    type `bool`. They do not: in `visit_BinOp` the arithmetic branch (any
    two numeric operands) precedes the equality and relational branches and
    ignores the operator, so a numeric comparison is typed `int` (or
    `float`), and the `bool`-returning branches below it are unreachable
    for numeric operands. Checked on the full analyzer for `1 < 2` and
    `1 == 2`, and on the type-rule table for all six operators over all
    int/float operand combinations. -/
theorem c3_numeric_comparison_not_bool :
    analyzeType? (.BinOp "<" (.Literal (.int 1) 1) (.Literal (.int 2) 1) 1) = some (some "int")
    ∧ analyzeType? (.BinOp "==" (.Literal (.int 1) 1) (.Literal (.int 2) 1) 1) = some (some "int")
    ∧ analyzeErr? c3prog = none
    ∧ (["<", "<=", ">", ">=", "==", "!="].all fun op =>
        [("int", "int", "int"), ("int", "float", "float"),
         ("float", "int", "float"), ("float", "float", "float")].all fun c =>
          decide (binopTypeRules op (some c.1) (some c.2.1) 1 = .ok (some c.2.2))) = true := by
  exact ⟨by decide, by decide, by decide, by decide⟩

/-- C4. The claim asserts `&&`/`||` on a non-bool operand is a
    `SemanticError` and on two bools gives `bool`. The error half fails:
    the logical branch of `visit_BinOp` tests `op in ["and", "or"]`, but
    the parser produces the operators `&&` and `||`, so the branch never
    fires; `1 && 2` falls into the arithmetic branch and is typed `int`
    with no error, and `bool && int` falls through to `return lt` (also no
    error). Two bool operands do get `bool`, but only via the final
    `return lt` fallthrough. -/
theorem c4_logical_ops_unchecked :
    analyzeErr? c4prog = none
    ∧ analyzeType? (.BinOp "&&" (.Literal (.int 1) 1) (.Literal (.int 2) 1) 1) = some (some "int")
    ∧ binopTypeRules "&&" (some "bool") (some "bool") 1 = .ok (some "bool")
    ∧ binopTypeRules "||" (some "bool") (some "bool") 1 = .ok (some "bool")
    ∧ binopTypeRules "&&" (some "bool") (some "int") 1 = .ok (some "bool")
    ∧ binopTypeRules "and" (some "bool") (some "int") 1
        = .error (.semanticError
            "Logical operator \x27and\x27 requires bool operands, got bool and int at line 1") := by
  exact ⟨by decide, by decide, by decide, by decide, by decide, by decide⟩

/-- C5 counterexample. The claim asserts a string token's stored value
    excludes the surrounding quotes. On the lexeme `"foo"` the stored value
    is the full lexeme `"foo"` with its quotes — not `foo`. -/
theorem c5_counterexample :
    isStringLexeme "\"foo\"" = true
    ∧ t_STRING_value "\"foo\"" ≠ "foo"
    ∧ (t_STRING_value "\"foo\"").data.head? = some '"'
    ∧ (t_STRING_value "\"foo\"").data.getLast? = some '"' := by
  exact ⟨by decide, by decide, by decide, by decide⟩

/-- C5 (amended). `t_STRING`'s body is `return t`, so for every lexeme
    matching the string-literal pattern the stored value is the lexeme
    itself, which *includes* the surrounding quote characters: its first
    and last characters are the quote character that delimited it. -/
theorem c5_string_value_keeps_quotes (lex : String) (h : isStringLexeme lex = true) :
    t_STRING_value lex = lex
    ∧ (∃ q, (q = '"' ∨ q = '\x27')
        ∧ (t_STRING_value lex).data.head? = some q
        ∧ (t_STRING_value lex).data.getLast? = some q) := by
  refine ⟨rfl, ?_⟩
  unfold isStringLexeme at h
  match hd : lex.data with
  | [] => rw [hd] at h; simp at h
  | c :: rest =>
    rw [hd] at h
    simp only [Bool.and_eq_true, Bool.or_eq_true, decide_eq_true_eq] at h
    obtain ⟨hc, hrest⟩ := h
    match hr : rest.reverse with
    | [] => rw [hr] at hrest; simp at hrest
    | cLast :: midRev =>
      rw [hr] at hrest
      simp only [Bool.and_eq_true, decide_eq_true_eq] at hrest
      refine ⟨c, hc, ?_, ?_⟩
      · simp [t_STRING_value, hd]
      · have hre : rest = (cLast :: midRev).reverse := by
          rw [← hr, List.reverse_reverse]
        simp only [t_STRING_value, hd, hre, hrest.1, List.reverse_cons]
        rw [← List.cons_append, List.getLast?_concat]

/-- Witness for `c5_string_value_keeps_quotes` at the lexeme `"foo"`. -/
theorem c5_string_value_keeps_quotes_witness :
    t_STRING_value "\"foo\"" = "\"foo\""
    ∧ (∃ q, (q = '"' ∨ q = '\x27')
        ∧ (t_STRING_value "\"foo\"").data.head? = some q
        ∧ (t_STRING_value "\"foo\"").data.getLast? = some q) :=
  c5_string_value_keeps_quotes "\"foo\"" (by decide)

/-- C6. Every `%` whose operand types after unknown-propagation are not
    both `int` raises a `SemanticError` whose message starts with
    `Modulo '%' requires integer operands` (the quantified part ranges over
    exactly the post-propagation types fed to the type-rule tail of
    `visit_BinOp`), and the program `x = "foo"; y = x % 2;` is rejected
    with exactly that message. -/
theorem c6_modulo_requires_int :
    (∀ (lt rt : Option String) (ln : Nat), lt ≠ some "int" ∨ rt ≠ some "int" →
      ∃ rest, binopTypeRules "%" lt rt ln
        = .error (.semanticError ("Modulo \x27%\x27 requires integer operands" ++ rest)))
    ∧ analyzeErr? c6prog
      = some (.semanticError
          "Modulo \x27%\x27 requires integer operands, got string and int at line 1") := by
  constructor
  · intro lt rt ln h
    refine ⟨", got " ++ optStr lt ++ " and " ++ optStr rt ++ " at line " ++ natStr ln, ?_⟩
    have hop : ¬(("%" : String) = "+" ∧ (lt = some "string" ∨ rt = some "string")) := by
      rintro ⟨h1, -⟩; exact absurd h1 (by decide)
    have hmod : ("%" : String) = "%" ∧ (lt ≠ some "int" ∨ rt ≠ some "int") := ⟨rfl, h⟩
    rw [binopTypeRules, if_neg hop, if_pos hmod]
    have hsplit : ("Modulo \x27%\x27 requires integer operands, got " : String)
        = "Modulo \x27%\x27 requires integer operands" ++ ", got " := by decide
    rw [hsplit]
    simp only [String.append_assoc]
  · decide

/-- Witness for `c6_modulo_requires_int` at `string % int`, line 1. -/
theorem c6_modulo_requires_int_witness :
    ∃ rest, binopTypeRules "%" (some "string") (some "int") 1
      = .error (.semanticError ("Modulo \x27%\x27 requires integer operands" ++ rest)) :=
  c6_modulo_requires_int.1 (some "string") (some "int") 1 (Or.inl (by decide))

/-- C8. `JZ` and `JMP_IF_FALSE` have identical semantics: executing either
    with the same label operand in the same machine state yields the same
    result (pop the top; jump to the label's index iff it is falsy). -/
theorem c8_jz_eq_jmp_if_false (m : Machine) (l : String) :
    execLine (.instr "JZ" [l]) m = execLine (.instr "JMP_IF_FALSE" [l]) m := rfl

/-- C9. The generator emits for `!e` exactly the instructions of `e`
    (`gen_UnaryOp` only emits `NEG` for `-`), the analyzer gives `!e`
    exactly the analysis of `e` (`visit_UnaryOp` returns
    `analyze(node.expr)` unconditionally), and no `NOT` opcode exists in
    the VM (it would be an unknown instruction). -/
theorem c9_logical_not_is_identity :
    (∀ (e : Node) (ln : Nat) (g : CodeGenSt),
      generate (.UnaryOp "!" e ln) g = generate e g)
    ∧ (∀ (e : Node) (ln : Nat) (st : AState),
      analyze (.UnaryOp "!" e ln) st = analyze e st)
    ∧ (∀ (m : Machine), execLine (.instr "NOT" []) m
        = .err (.exception "Unknown instruction: NOT")) := by
  refine ⟨fun e ln g => ?_, fun e ln st => rfl, fun m => rfl⟩
  simp only [generate]
  cases generate e g <;> rfl

/-- C10. `visit_Block` demands a `Block` node: on any other node it raises
    the `AttributeError` for the missing `statements` attribute (which is
    not a `SemanticError`), and it can only succeed on a `Block`. The
    grammar's single-statement bodies trigger exactly this: analyzing
    `if (1) x = 2;`, `while (1) x = 2;` and `for (;;) x = 2;` each fails
    with the `AttributeError`, and an `if`/`while`/`for` analysis can only
    succeed when each analyzed body is a braced block. -/
theorem c10_nonblock_bodies_crash :
    (∀ (n : Node) (st : AState), isBlockNode n = false →
      visitBlock n st = .error (.attributeError
        ("\x27" ++ nodeClassName n ++ "\x27 object has no attribute \x27statements\x27")))
    ∧ (∀ msg msg', Exn.attributeError msg ≠ Exn.semanticError msg')
    ∧ (∀ (n : Node) (st : AState) r, visitBlock n st = .ok r → isBlockNode n = true)
    ∧ analyzeErr? c10ifProg
      = some (.attributeError "\x27Assignment\x27 object has no attribute \x27statements\x27")
    ∧ analyzeErr? c10whileProg
      = some (.attributeError "\x27Assignment\x27 object has no attribute \x27statements\x27")
    ∧ analyzeErr? c10forProg
      = some (.attributeError "\x27Assignment\x27 object has no attribute \x27statements\x27") := by
  refine ⟨?_, ?_, ?_, by decide, by decide, by decide⟩
  · intro n st h
    cases n <;> first
      | rfl
      | exact Bool.noConfusion h
  · intro msg msg' hcon
    exact Exn.noConfusion hcon
  · intro n st r h
    cases n <;> first
      | rfl
      | exact Except.noConfusion h

/-- Witness for the hypothesis-bearing conjuncts of
    `c10_nonblock_bodies_crash`, at an `Assignment` body node. -/
theorem c10_nonblock_bodies_crash_witness :
    visitBlock (.Assignment (.Identifier "x" 1) (.Literal (.int 2) 1) 1) initAState
      = .error (.attributeError
          "\x27Assignment\x27 object has no attribute \x27statements\x27") :=
  c10_nonblock_bodies_crash.1 (.Assignment (.Identifier "x" 1) (.Literal (.int 2) 1) 1)
    initAState rfl


/-! ## Decimal rendering: injectivity -/

theorem digitVal_digitCh : ∀ d, d < 10 → digitVal (digitCh d) = d := by decide

theorem decDigits_concat (l : List Char) (c : Char) :
    decDigits (l ++ [c]) = decDigits l * 10 + digitVal c := by
  simp [decDigits, List.foldl_append]

theorem natStrGo_spec : ∀ fuel n acc, n < fuel →
    ∃ ds, ds ≠ [] ∧ natStrGo fuel n acc = ds ++ acc ∧ decDigits ds = n := by
  intro fuel
  induction fuel with
  | zero => intro n acc h; omega
  | succ f ih =>
    intro n acc h
    by_cases h10 : n < 10
    · refine ⟨[digitCh (n % 10)], by simp, ?_, ?_⟩
      · simp [natStrGo, h10]
      · have hm : n % 10 = n := Nat.mod_eq_of_lt h10
        simp [decDigits, hm, digitVal_digitCh n h10]
    · have hn0 : 0 < n := by omega
      have hdiv : n / 10 < f := by
        have := Nat.div_lt_self hn0 (by norm_num : 1 < 10)
        omega
      obtain ⟨ds, hne, hgo, hdec⟩ := ih (n / 10) (digitCh (n % 10) :: acc) hdiv
      refine ⟨ds ++ [digitCh (n % 10)], by simp, ?_, ?_⟩
      · rw [natStrGo]
        simp only [h10, if_false, List.append_assoc, List.singleton_append]
        exact hgo
      · rw [decDigits_concat, hdec, digitVal_digitCh _ (Nat.mod_lt _ (by norm_num))]
        omega

theorem natStr_inj {a b : Nat} (h : natStr a = natStr b) : a = b := by
  obtain ⟨da, _, hga, hda⟩ := natStrGo_spec (a + 1) a [] (by omega)
  obtain ⟨db, _, hgb, hdb⟩ := natStrGo_spec (b + 1) b [] (by omega)
  have hdat : natStrGo (a + 1) a [] = natStrGo (b + 1) b [] := congrArg String.data h
  rw [hga, hgb, List.append_nil, List.append_nil] at hdat
  rw [← hda, ← hdb, hdat]

/-! ## Label-name arithmetic -/

theorem prefixes_nonprefix :
    ∀ p₁ ∈ labelPrefixes, ∀ p₂ ∈ labelPrefixes,
      p₁.data.isPrefixOf p₂.data = true → p₁ = p₂ := by decide

theorem ctrLabel_inj {p₁ p₂ : String} {k₁ k₂ : Nat}
    (hp₁ : p₁ ∈ labelPrefixes) (hp₂ : p₂ ∈ labelPrefixes)
    (h : ctrLabel p₁ k₁ = ctrLabel p₂ k₂) : p₁ = p₂ ∧ k₁ = k₂ := by
  have hd : p₁.data ++ (natStr k₁).data = p₂.data ++ (natStr k₂).data := by
    have := congrArg String.data h
    simpa [ctrLabel, String.data_append] using this
  rcases List.append_eq_append_iff.1 hd with ⟨as, h2, h1⟩ | ⟨cs, h2, h1⟩
  · have hpp : p₁ = p₂ :=
      prefixes_nonprefix p₁ hp₁ p₂ hp₂ (List.isPrefixOf_iff_prefix.2 ⟨as, h2.symm⟩)
    subst hpp
    have has : as = [] := by
      have h2' : p₁.data ++ ([] : List Char) = p₁.data ++ as := by simpa using h2
      simpa using (List.append_inj_right h2' rfl).symm
    subst has
    refine ⟨rfl, natStr_inj (String.ext ?_)⟩
    simpa using h1
  · have hpp : p₂ = p₁ :=
      prefixes_nonprefix p₂ hp₂ p₁ hp₁ (List.isPrefixOf_iff_prefix.2 ⟨cs, h2.symm⟩)
    subst hpp
    have hcs : cs = [] := by
      have h2' : p₂.data ++ ([] : List Char) = p₂.data ++ cs := by simpa using h2
      simpa using (List.append_inj_right h2' rfl).symm
    subst hcs
    refine ⟨rfl, (natStr_inj (String.ext ?_)).symm⟩
    simpa using h1

theorem funcLabel_ne_ctrLabel {p : String} (hp : p ∈ labelPrefixes) (nm : String) (k : Nat) :
    "FUNC_" ++ nm ≠ ctrLabel p k := by
  intro h
  have hd : ("FUNC_").data ++ nm.data = p.data ++ (natStr k).data := by
    have := congrArg String.data h
    simpa [ctrLabel, String.data_append] using this
  rw [show ("FUNC_").data = ['F', 'U', 'N', 'C', '_'] from by decide] at hd
  fin_cases hp <;>
    simp_all [show ("ELSE").data = ['E', 'L', 'S', 'E'] from by decide,
      show ("ENDIF").data = ['E', 'N', 'D', 'I', 'F'] from by decide,
      show ("WHILE_START").data = ['W', 'H', 'I', 'L', 'E', '_', 'S', 'T', 'A', 'R', 'T']
        from by decide,
      show ("WHILE_END").data = ['W', 'H', 'I', 'L', 'E', '_', 'E', 'N', 'D'] from by decide,
      show ("FOR_START").data = ['F', 'O', 'R', '_', 'S', 'T', 'A', 'R', 'T'] from by decide,
      show ("FOR_END").data = ['F', 'O', 'R', '_', 'E', 'N', 'D'] from by decide,
      show ("FOR_UPDATE").data = ['F', 'O', 'R', '_', 'U', 'P', 'D', 'A', 'T', 'E']
        from by decide]

/-! ## Dictionary and label-table lemmas -/

theorem dictGet?_set_self {α : Type} (d : List (String × α)) (k : String) (v : α) :
    dictGet? (dictSet d k v) k = some v := by
  induction d with
  | nil => simp [dictSet, dictGet?]
  | cons hd tl ih =>
    obtain ⟨k', v'⟩ := hd
    by_cases h : k' = k <;> simp [dictSet, dictGet?, h, ih]

theorem dictGet?_set_ne {α : Type} (d : List (String × α)) {k k' : String} (v : α)
    (h : k' ≠ k) : dictGet? (dictSet d k' v) k = dictGet? d k := by
  induction d with
  | nil => simp [dictSet, dictGet?, h]
  | cons hd tl ih =>
    obtain ⟨k'', v''⟩ := hd
    by_cases h2 : k'' = k' <;> simp [dictSet, dictGet?, h2, ih]
    · subst h2; simp [h, dictGet?]

theorem labelsIn_append (a b : List Line) : labelsIn (a ++ b) = labelsIn a ++ labelsIn b := by
  simp [labelsIn]

theorem labelsIn_cons_label (n : String) (rest : List Line) :
    labelsIn (.label n :: rest) = n :: labelsIn rest := rfl

theorem labelsIn_cons_instr (op : String) (args : List String) (rest : List Line) :
    labelsIn (.instr op args :: rest) = labelsIn rest := rfl

theorem mapLabelsGo_cons_label (n : String) (rest : List Line) (i : Nat)
    (labs : List (String × Nat)) :
    mapLabelsGo (.label n :: rest) i labs = mapLabelsGo rest (i + 1) (dictSet labs n i) := rfl

theorem mapLabelsGo_cons_instr (op : String) (args : List String) (rest : List Line) (i : Nat)
    (labs : List (String × Nat)) :
    mapLabelsGo (.instr op args :: rest) i labs = mapLabelsGo rest (i + 1) labs := rfl

theorem jmpTargets_append (a b : List Line) :
    jmpTargets (a ++ b) = jmpTargets a ++ jmpTargets b := by
  simp [jmpTargets]

theorem mapLabelsGo_not_mem : ∀ (code : List Line) (i : Nat) (labs : List (String × Nat))
    (t : String), t ∉ labelsIn code →
    dictGet? (mapLabelsGo code i labs) t = dictGet? labs t := by
  intro code
  induction code with
  | nil => intro i labs t _; rfl
  | cons l rest ih =>
    intro i labs t ht
    cases l with
    | label n =>
      rw [labelsIn_cons_label] at ht
      have hne : n ≠ t := fun h => ht (h ▸ List.mem_cons_self n _)
      have ht' : t ∉ labelsIn rest := fun h => ht (List.mem_cons_of_mem n h)
      rw [mapLabelsGo_cons_label, ih (i + 1) _ t ht']
      exact dictGet?_set_ne _ _ hne
    | instr op args =>
      rw [labelsIn_cons_instr] at ht
      rw [mapLabelsGo_cons_instr]
      exact ih (i + 1) _ t ht

theorem mapLabelsGo_found : ∀ (code : List Line) (j i : Nat) (labs : List (String × Nat))
    (t : String), (labelsIn code).count t = 1 → code[j]? = some (.label t) →
    dictGet? (mapLabelsGo code i labs) t = some (i + j) := by
  intro code
  induction code with
  | nil => intro j i labs t _ hj; simp at hj
  | cons l rest ih =>
    intro j i labs t hcount hj
    cases j with
    | zero =>
      simp at hj
      subst hj
      rw [labelsIn_cons_label, List.count_cons_self] at hcount
      have hnot : t ∉ labelsIn rest :=
        List.count_eq_zero.1 (by omega)
      rw [mapLabelsGo_cons_label, mapLabelsGo_not_mem rest (i + 1) _ t hnot]
      simpa using dictGet?_set_self labs t i
    | succ j' =>
      simp only [List.getElem?_cons_succ] at hj
      have hmem : t ∈ labelsIn rest :=
        List.mem_filterMap.2 ⟨.label t, List.getElem?_mem hj, rfl⟩
      have hpos : 0 < (labelsIn rest).count t := List.count_pos_iff.2 hmem
      cases l with
      | label n =>
        rw [labelsIn_cons_label] at hcount
        have hne : n ≠ t := by
          intro h; subst h
          rw [List.count_cons_self] at hcount; omega
        rw [List.count_cons_of_ne (fun h => hne h.symm)] at hcount
        rw [mapLabelsGo_cons_label]
        have := ih j' (i + 1) (dictSet labs n i) t hcount hj
        rw [this]
        congr 1
        omega
      | instr op args =>
        rw [labelsIn_cons_instr] at hcount
        rw [mapLabelsGo_cons_instr]
        have := ih j' (i + 1) labs t hcount hj
        rw [this]
        congr 1
        omega

theorem mapLabels_found (code : List Line) (t : String) (j : Nat)
    (hcount : (labelsIn code).count t = 1) (hj : code[j]? = some (.label t)) :
    dictGet? (mapLabels code) t = some j := by
  simpa using mapLabelsGo_found code j 0 [] t hcount hj

/-! ## Chunk composition -/

theorem ctr_mem_bound {c c' : Nat} {ls : List (String × String)} {Δ Δf : List Line}
    (h : ChunkOK c c' ls Δ Δf) {p : String} {k : Nat} (hp : p ∈ labelPrefixes)
    (hmem : ctrLabel p k ∈ labelsIn Δ ++ labelsIn Δf) : c < k ∧ k ≤ c' := by
  rcases List.mem_append.1 hmem with hm | hm
  · obtain ⟨p', k', hp', hk1, hk2, he⟩ := h.labMain _ hm
    obtain ⟨-, hk⟩ := ctrLabel_inj hp hp' he
    omega
  · rcases h.labFunc _ hm with ⟨p', k', hp', hk1, hk2, he⟩ | ⟨nm, he⟩
    · obtain ⟨-, hk⟩ := ctrLabel_inj hp hp' he
      omega
    · exact absurd he.symm (funcLabel_ne_ctrLabel hp nm k)

theorem ctr_count_zero {c c' : Nat} {ls : List (String × String)} {Δ Δf : List Line}
    (h : ChunkOK c c' ls Δ Δf) {p : String} {k : Nat} (hp : p ∈ labelPrefixes)
    (hout : k ≤ c ∨ c' < k) :
    (labelsIn Δ ++ labelsIn Δf).count (ctrLabel p k) = 0 := by
  refine List.count_eq_zero.2 fun hmem => ?_
  have := ctr_mem_bound h hp hmem
  omega

theorem ChunkOK.comp {c c₁ c₂ : Nat} {ls : List (String × String)}
    {Δ₁ Δf₁ Δ₂ Δf₂ : List Line}
    (h1 : ChunkOK c c₁ ls Δ₁ Δf₁) (h2 : ChunkOK c₁ c₂ ls Δ₂ Δf₂)
    (hc1 : c ≤ c₁) (hc2 : c₁ ≤ c₂) :
    ChunkOK c c₂ ls (Δ₁ ++ Δ₂) (Δf₁ ++ Δf₂) := by
  constructor
  · intro l hl
    rw [labelsIn_append] at hl
    rcases List.mem_append.1 hl with hm | hm
    · obtain ⟨p, k, hp, hk1, hk2, he⟩ := h1.labMain _ hm
      exact ⟨p, k, hp, hk1, by omega, he⟩
    · obtain ⟨p, k, hp, hk1, hk2, he⟩ := h2.labMain _ hm
      exact ⟨p, k, hp, by omega, hk2, he⟩
  · intro l hl
    rw [labelsIn_append] at hl
    rcases List.mem_append.1 hl with hm | hm
    · rcases h1.labFunc _ hm with ⟨p, k, hp, hk1, hk2, he⟩ | hfn
      · exact Or.inl ⟨p, k, hp, hk1, by omega, he⟩
      · exact Or.inr hfn
    · rcases h2.labFunc _ hm with ⟨p, k, hp, hk1, hk2, he⟩ | hfn
      · exact Or.inl ⟨p, k, hp, by omega, hk2, he⟩
      · exact Or.inr hfn
  · intro p k hp
    rw [labelsIn_append, labelsIn_append]
    have e : (labelsIn Δ₁ ++ labelsIn Δ₂ ++ (labelsIn Δf₁ ++ labelsIn Δf₂)).count (ctrLabel p k)
        = (labelsIn Δ₁ ++ labelsIn Δf₁).count (ctrLabel p k)
          + (labelsIn Δ₂ ++ labelsIn Δf₂).count (ctrLabel p k) := by
      simp [List.count_append]
      omega
    rw [e]
    by_cases hk : k ≤ c₁
    · have hz : (labelsIn Δ₂ ++ labelsIn Δf₂).count (ctrLabel p k) = 0 :=
        ctr_count_zero h2 hp (Or.inl hk)
      have ho : (labelsIn Δ₁ ++ labelsIn Δf₁).count (ctrLabel p k) ≤ 1 := h1.ctrOnce p k hp
      omega
    · have hz : (labelsIn Δ₁ ++ labelsIn Δf₁).count (ctrLabel p k) = 0 :=
        ctr_count_zero h1 hp (Or.inr (by omega))
      have ho : (labelsIn Δ₂ ++ labelsIn Δf₂).count (ctrLabel p k) ≤ 1 := h2.ctrOnce p k hp
      omega
  · intro t ht
    rw [jmpTargets_append] at ht
    rw [labelsIn_append]
    rcases List.mem_append.1 ht with hm | hm
    · rcases h1.jmpsOK _ hm with h | h
      · exact Or.inl (List.mem_append.2 (Or.inl h))
      · exact Or.inr h
    · rcases h2.jmpsOK _ hm with h | h
      · exact Or.inl (List.mem_append.2 (Or.inr h))
      · exact Or.inr h

/-- The empty chunk. -/
theorem ChunkOK.nil {c : Nat} {ls : List (String × String)} : ChunkOK c c ls [] [] := by
  constructor <;> simp [labelsIn, jmpTargets]

/-- A single line that is neither a label nor a jump. -/
theorem ChunkOK.plain {c : Nat} {ls : List (String × String)} {line : Line}
    (h1 : labelName? line = none) (h2 : jmpTarget? line = none) :
    ChunkOK c c ls [line] [] := by
  constructor <;> simp [labelsIn, jmpTargets, h1, h2]

/-- A single jump line whose target is a surrounding loop label. -/
theorem ChunkOK.jmpLoop {c : Nat} {ls : List (String × String)} {line : Line} {t : String}
    (h1 : labelName? line = none) (h2 : jmpTarget? line = some t)
    (h3 : t ∈ loopLabels ls) :
    ChunkOK c c ls [line] [] := by
  constructor <;> simp [labelsIn, jmpTargets, h1, h2]
  exact h3

/-! ## Generator-state lemmas -/

theorem bind_ok {α β : Type} {x : Except Exn α} {f : α → Except Exn β} {b : β}
    (h : x >>= f = .ok b) : ∃ a, x = .ok a ∧ f a = .ok b := by
  cases x with
  | error e => simp [Bind.bind, Except.bind] at h
  | ok a => exact ⟨a, rfl, by simpa [Bind.bind, Except.bind] using h⟩

theorem loopLabels_concat (ls : List (String × String)) (a b : String) :
    loopLabels (ls ++ [(a, b)]) = loopLabels ls ++ [a, b] := by
  induction ls with
  | nil => rfl
  | cons hd tl ih => simp [loopLabels] at ih ⊢; simp [ih]

theorem loopLabels_getLast {ls : List (String × String)} {a b : String}
    (h : ls.getLast? = some (a, b)) : a ∈ loopLabels ls ∧ b ∈ loopLabels ls := by
  induction ls with
  | nil => simp at h
  | cons hd tl ih =>
    cases tl with
    | nil =>
      simp [List.getLast?] at h
      subst h
      simp [loopLabels]
    | cons hd2 tl2 =>
      rw [List.getLast?_cons_cons] at h
      have := ih h
      simp [loopLabels] at this ⊢
      tauto

theorem GenOK.refl (g : CodeGenSt) : GenOK g g :=
  ⟨le_refl _, rfl, [], [], by simp, by simp, ChunkOK.nil⟩

theorem GenOK.trans {g g₁ g₂ : CodeGenSt} (h1 : GenOK g g₁) (h2 : GenOK g₁ g₂) :
    GenOK g g₂ := by
  obtain ⟨hc1, hls1, Δ₁, Δf₁, hcode1, hfc1, hch1⟩ := h1
  obtain ⟨hc2, hls2, Δ₂, Δf₂, hcode2, hfc2, hch2⟩ := h2
  refine ⟨le_trans hc1 hc2, hls2.trans hls1, Δ₁ ++ Δ₂, Δf₁ ++ Δf₂, ?_, ?_, ?_⟩
  · rw [hcode2, hcode1, List.append_assoc]
  · rw [hfc2, hfc1, List.append_assoc]
  · rw [hls1] at hch2
    exact ChunkOK.comp hch1 hch2 hc1 hc2

theorem GenOK.emit_plain {g g₁ : CodeGenSt} (h1 : GenOK g g₁) (line : Line)
    (hl : labelName? line = none) (hj : jmpTarget? line = none) :
    GenOK g (emitL g₁ line) :=
  h1.trans ⟨le_refl _, rfl, [line], [], rfl, by simp [emitL], ChunkOK.plain hl hj⟩

theorem generate_FunctionDef_red (nm : String) (ps : List Node) (stmts : List Node)
    (bl ln : Nat) (g : CodeGenSt) :
    generate (.FunctionDef nm ps (.Block stmts bl) ln) g
    = (genStmtList stmts (funcEntrySt g nm ps)) >>= (fun gD =>
        let gE := emitL (emitL gD (.instr "PUSH" ["0"])) (.instr "RET" [])
        .ok { gE with function_code := gE.function_code ++ gE.code, code := g.code }) := rfl

theorem generate_FunctionDef_code {nm : String} {ps : List Node} {b : Node} {ln : Nat}
    {g g' : CodeGenSt} (h : generate (.FunctionDef nm ps b ln) g = .ok g') :
    g'.code = g.code := by
  cases b with
  | Block stmts bl =>
    rw [generate_FunctionDef_red] at h
    obtain ⟨gD, hgD, hok⟩ := bind_ok h
    simp only [Except.ok.injEq] at hok
    rw [← hok]
  | Program s l => exact Except.noConfusion h
  | Literal v l => exact Except.noConfusion h
  | Identifier n l => exact Except.noConfusion h
  | BinOp o a b l => exact Except.noConfusion h
  | UnaryOp o e l => exact Except.noConfusion h
  | Assignment t v l => exact Except.noConfusion h
  | ExprStatement e l => exact Except.noConfusion h
  | IfStatement c t e l => exact Except.noConfusion h
  | WhileStatement c bd l => exact Except.noConfusion h
  | ForStatement i c u bd l => exact Except.noConfusion h
  | FunctionDef n p bd l => exact Except.noConfusion h
  | FunCall n a l => exact Except.noConfusion h
  | ReturnStatement v l => exact Except.noConfusion h
  | ControlFlow k l => exact Except.noConfusion h

theorem foldl_emit_store (ps : List Node) (g₀ : CodeGenSt) :
    ps.foldl (fun acc p => emitL acc (.instr "STORE" [paramName p])) g₀
    = { g₀ with code := g₀.code ++ ps.map (fun p => .instr "STORE" [paramName p]) } := by
  induction ps generalizing g₀ with
  | nil => simp
  | cons p rest ih =>
    rw [List.foldl_cons, ih]
    simp [emitL]

/-! ## Unfolding equations for `generate` -/

theorem generate_Literal_red (v : PyVal) (ln : Nat) (g : CodeGenSt) :
    generate (.Literal v ln) g = .ok (emitL g (.instr "PUSH" [pyStr v])) := rfl

theorem generate_Identifier_red (nm : String) (ln : Nat) (g : CodeGenSt) :
    generate (.Identifier nm ln) g = .ok (emitL g (.instr "LOAD" [nm])) := rfl

theorem generate_Assignment_red (t v : Node) (ln : Nat) (g : CodeGenSt) :
    generate (.Assignment t v ln) g
    = (generate v g) >>= fun g1 => (nameAttr t) >>= fun nm =>
        .ok (emitL g1 (.instr "STORE" [nm])) := rfl

theorem generate_BinOp_red (op : String) (l r : Node) (ln : Nat) (g : CodeGenSt) :
    generate (.BinOp op l r ln) g
    = (generate l g) >>= fun g1 => (generate r g1) >>= fun g2 =>
        match opmap op with
        | some o => .ok (emitL g2 (.instr o []))
        | none => .error (.keyError op) := rfl

theorem generate_UnaryOp_red (op : String) (e : Node) (ln : Nat) (g : CodeGenSt) :
    generate (.UnaryOp op e ln) g
    = (generate e g) >>= fun g1 =>
        if op = "-" then .ok (emitL g1 (.instr "NEG" [])) else .ok g1 := rfl

theorem generate_ExprStatement_red (e : Node) (ln : Nat) (g : CodeGenSt) :
    generate (.ExprStatement e ln) g
    = (generate e g) >>= fun g1 => .ok (emitL g1 (.instr "POP" [])) := rfl

theorem generate_Program_red (stmts : List Node) (ln : Nat) (g : CodeGenSt) :
    generate (.Program stmts ln) g
    = (genMainStmts stmts g) >>= fun g1 =>
      (genFuncStmts stmts (emitL g1 (.instr "HALT" []))) >>= fun g3 =>
      .ok { g3 with code := g3.code ++ g3.function_code } := rfl

theorem generate_Block_red (stmts : List Node) (ln : Nat) (g : CodeGenSt) :
    generate (.Block stmts ln) g = genStmtList stmts g := rfl

theorem generate_If_red (c tb : Node) (eb : Option Node) (ln : Nat) (g : CodeGenSt) :
    generate (.IfStatement c tb eb ln) g
    = (generate c { g with label_count := g.label_count + 1 + 1 }) >>= fun g1 =>
      (generate tb (emitL g1 (.instr "JZ" [ctrLabel "ELSE" (g.label_count + 1)]))) >>= fun g3 =>
      (optGen eb (emitL
        (emitL g3 (.instr "JMP" [ctrLabel "ENDIF" (g.label_count + 1 + 1)]))
        (.label (ctrLabel "ELSE" (g.label_count + 1))))) >>= fun g6 =>
      .ok (emitL g6 (.label (ctrLabel "ENDIF" (g.label_count + 1 + 1)))) := rfl

theorem generate_While_red (c bd : Node) (ln : Nat) (g : CodeGenSt) :
    generate (.WhileStatement c bd ln) g
    = (generate c (emitL
        { g with
            label_count := g.label_count + 1 + 1
            loop_stack := g.loop_stack ++
              [(ctrLabel "WHILE_END" (g.label_count + 1 + 1),
                ctrLabel "WHILE_START" (g.label_count + 1))] }
        (.label (ctrLabel "WHILE_START" (g.label_count + 1))))) >>= fun g2 =>
      (generate bd (emitL g2
        (.instr "JMP_IF_FALSE" [ctrLabel "WHILE_END" (g.label_count + 1 + 1)]))) >>= fun g4 =>
      (let g6 := emitL (emitL g4 (.instr "JMP" [ctrLabel "WHILE_START" (g.label_count + 1)]))
        (.label (ctrLabel "WHILE_END" (g.label_count + 1 + 1)))
      .ok { g6 with loop_stack := g6.loop_stack.dropLast }) := rfl

theorem generate_For_red (init cond upd : Option Node) (bd : Node) (ln : Nat) (g : CodeGenSt) :
    generate (.ForStatement init cond upd bd ln) g
    = (optGen init g) >>= fun gI =>
      (forCondGen cond (ctrLabel "FOR_END" (gI.label_count + 1 + 1))
        (emitL
          { gI with
              label_count := gI.label_count + 1 + 1 + 1
              loop_stack := gI.loop_stack ++
                [(ctrLabel "FOR_END" (gI.label_count + 1 + 1),
                  ctrLabel "FOR_UPDATE" (gI.label_count + 1 + 1 + 1))] }
          (.label (ctrLabel "FOR_START" (gI.label_count + 1))))) >>= fun g2 =>
      (generate bd g2) >>= fun g3 =>
      (optGen upd (emitL g3
        (.label (ctrLabel "FOR_UPDATE" (gI.label_count + 1 + 1 + 1))))) >>= fun g5 =>
      (let g7 := emitL (emitL g5 (.instr "JMP" [ctrLabel "FOR_START" (gI.label_count + 1)]))
        (.label (ctrLabel "FOR_END" (gI.label_count + 1 + 1)))
      .ok { g7 with loop_stack := g7.loop_stack.dropLast }) := rfl

theorem generate_FunCall_red (nmN : Node) (args : List Node) (ln : Nat) (g : CodeGenSt) :
    generate (.FunCall nmN args ln) g
    = (genStmtList args g) >>= fun g1 => (nameAttr nmN) >>= fun nm =>
        .ok (emitL g1 (.instr "CALL" ["FUNC_" ++ nm, natStr args.length])) := rfl

theorem generate_Return_red (v : Option Node) (ln : Nat) (g : CodeGenSt) :
    generate (.ReturnStatement v ln) g
    = (returnValGen v g) >>= fun g1 => .ok (emitL g1 (.instr "RET" [])) := rfl

theorem generate_ControlFlow_red (kw : String) (ln : Nat) (g : CodeGenSt) :
    generate (.ControlFlow kw ln) g
    = match g.loop_stack.getLast? with
      | none => .error (.exception (kw ++ " used outside loop at line " ++ natStr ln))
      | some (breakL, contL) =>
        if kw = "break" then .ok (emitL g (.instr "JMP" [breakL]))
        else .ok (emitL g (.instr "JMP" [contL])) := rfl

theorem genStmtList_cons_red (n : Node) (rest : List Node) (g : CodeGenSt) :
    genStmtList (n :: rest) g = (generate n g) >>= fun g1 => genStmtList rest g1 := rfl

theorem genMainStmts_cons_red (n : Node) (rest : List Node) (g : CodeGenSt) :
    genMainStmts (n :: rest) g
    = if isFunctionDef n then genMainStmts rest g
      else (generate n g) >>= fun g1 => genMainStmts rest g1 := rfl

theorem genFuncStmts_cons_red (n : Node) (rest : List Node) (g : CodeGenSt) :
    genFuncStmts (n :: rest) g
    = if isFunctionDef n then (generate n g) >>= fun g1 => genFuncStmts rest g1
      else genFuncStmts rest g := rfl

/-! ## The chunk invariant of the generator -/

theorem ChunkOK.label_single {c c' : Nat} {ls : List (String × String)} {p : String} {k : Nat}
    (hp : p ∈ labelPrefixes) (h1 : c < k) (h2 : k ≤ c') :
    ChunkOK c c' ls [.label (ctrLabel p k)] [] := by
  constructor
  · intro l hl
    simp [labelsIn, labelName?] at hl
    exact ⟨p, k, hp, h1, h2, hl⟩
  · intro l hl
    simp [labelsIn, labelName?] at hl
  · intro p' k' hp'
    have : labelsIn [Line.label (ctrLabel p k)] ++ labelsIn ([] : List Line)
        = [ctrLabel p k] := rfl
    rw [this]
    simp [List.count_cons]
    split <;> omega
  · intro t ht
    simp [jmpTargets, jmpTarget?] at ht

theorem labelsIn_nil : labelsIn [] = [] := rfl

theorem labelsIn_singleton_instr (op : String) (args : List String) :
    labelsIn [.instr op args] = [] := rfl

theorem labelsIn_singleton_label (n : String) : labelsIn [.label n] = [n] := rfl

theorem jmpTargets_nil : jmpTargets [] = [] := rfl

theorem labelsIn_store_map (xs : List Node) :
    labelsIn (xs.map fun p => Line.instr "STORE" [paramName p]) = [] := by
  induction xs with
  | nil => rfl
  | cons x rest ih => simpa [labelsIn, labelName?] using ih

theorem count_funcLabel_zero {p : String} (hp : p ∈ labelPrefixes) (nm : String) (k : Nat) :
    List.count (ctrLabel p k) ["FUNC_" ++ nm] = 0 := by
  refine List.count_eq_zero.2 fun hmem => ?_
  have : ctrLabel p k = "FUNC_" ++ nm := List.mem_singleton.1 hmem
  exact funcLabel_ne_ctrLabel hp nm k this.symm

theorem jmpTargets_singleton_label (n : String) : jmpTargets [.label n] = [] := rfl

theorem jmpTargets_JZ (l : String) : jmpTargets [.instr "JZ" [l]] = [l] := rfl

theorem jmpTargets_JMP (l : String) : jmpTargets [.instr "JMP" [l]] = [l] := rfl

theorem jmpTargets_JIF (l : String) : jmpTargets [.instr "JMP_IF_FALSE" [l]] = [l] := rfl

theorem emitL_code (g : CodeGenSt) (l : Line) : (emitL g l).code = g.code ++ [l] := rfl

theorem emitL_lc (g : CodeGenSt) (l : Line) : (emitL g l).label_count = g.label_count := rfl

theorem emitL_loop (g : CodeGenSt) (l : Line) : (emitL g l).loop_stack = g.loop_stack := rfl

theorem emitL_fc (g : CodeGenSt) (l : Line) :
    (emitL g l).function_code = g.function_code := rfl

theorem count_ctr_singleton_le {p p₀ : String} {k k₀ : Nat} :
    List.count (ctrLabel p k) [ctrLabel p₀ k₀] ≤ 1 := by
  simp [List.count_cons]
  split <;> omega

theorem count_ctr_singleton_zero {p p₀ : String} {k k₀ : Nat}
    (hp : p ∈ labelPrefixes) (hp₀ : p₀ ∈ labelPrefixes) (hne : k ≠ k₀) :
    List.count (ctrLabel p k) [ctrLabel p₀ k₀] = 0 := by
  refine List.count_eq_zero.2 fun hm => ?_
  have he := List.mem_singleton.1 hm
  exact hne (ctrLabel_inj hp hp₀ he).2

theorem chunk_counts_zero {c c' : Nat} {ls : List (String × String)} {Δ Δf : List Line}
    (h : ChunkOK c c' ls Δ Δf) {p : String} {k : Nat} (hp : p ∈ labelPrefixes)
    (hout : k ≤ c ∨ c' < k) :
    (labelsIn Δ).count (ctrLabel p k) = 0 ∧ (labelsIn Δf).count (ctrLabel p k) = 0 := by
  have := ctr_count_zero h hp hout
  rw [List.count_append] at this
  omega

theorem chunk_counts_le {c c' : Nat} {ls : List (String × String)} {Δ Δf : List Line}
    (h : ChunkOK c c' ls Δ Δf) {p : String} {k : Nat} (hp : p ∈ labelPrefixes) :
    (labelsIn Δ).count (ctrLabel p k) + (labelsIn Δf).count (ctrLabel p k) ≤ 1 := by
  have := h.ctrOnce p k hp
  rw [List.count_append] at this
  omega

theorem GenOK.counter_le {g g' : CodeGenSt} (h : GenOK g g') :
    g.label_count ≤ g'.label_count := h.1

theorem GenOK.loop_eq {g g' : CodeGenSt} (h : GenOK g g') :
    g'.loop_stack = g.loop_stack := h.2.1

mutual

theorem generate_GenOK (n : Node) (g g' : CodeGenSt)
    (hfree : progFree n = true) (h : generate n g = .ok g') : GenOK g g' := by
  cases n with
  | Program stmts ln => simp [progFree] at hfree
  | Literal v ln =>
    rw [generate_Literal_red] at h
    injection h with h
    subst h
    exact (GenOK.refl g).emit_plain _ rfl rfl
  | Identifier nm ln =>
    rw [generate_Identifier_red] at h
    injection h with h
    subst h
    exact (GenOK.refl g).emit_plain _ rfl rfl
  | Assignment t v ln =>
    rw [generate_Assignment_red] at h
    obtain ⟨g1, h1, h2⟩ := bind_ok h
    obtain ⟨nm, h3, h4⟩ := bind_ok h2
    injection h4 with h4
    subst h4
    simp [progFree, Bool.and_eq_true] at hfree
    exact ((generate_GenOK v g g1 hfree.2 h1).emit_plain _ rfl rfl)
  | BinOp op l r ln =>
    rw [generate_BinOp_red] at h
    obtain ⟨g1, h1, h2⟩ := bind_ok h
    obtain ⟨g2, h3, h4⟩ := bind_ok h2
    simp [progFree, Bool.and_eq_true] at hfree
    have ih1 := generate_GenOK l g g1 hfree.1 h1
    have ih2 := generate_GenOK r g1 g2 hfree.2 h3
    cases hop : opmap op with
    | none => rw [hop] at h4; exact Except.noConfusion h4
    | some o =>
      rw [hop] at h4
      injection h4 with h4
      subst h4
      exact (ih1.trans ih2).emit_plain _ rfl rfl
  | UnaryOp op e ln =>
    rw [generate_UnaryOp_red] at h
    obtain ⟨g1, h1, h2⟩ := bind_ok h
    simp only [progFree] at hfree
    have ih := generate_GenOK e g g1 hfree h1
    by_cases hop : op = "-"
    · rw [if_pos hop] at h2
      injection h2 with h2
      subst h2
      exact ih.emit_plain _ rfl rfl
    · rw [if_neg hop] at h2
      injection h2 with h2
      subst h2
      exact ih
  | ExprStatement e ln =>
    rw [generate_ExprStatement_red] at h
    obtain ⟨g1, h1, h2⟩ := bind_ok h
    simp only [progFree] at hfree
    injection h2 with h2
    subst h2
    exact (generate_GenOK e g g1 hfree h1).emit_plain _ rfl rfl
  | Block stmts ln =>
    rw [generate_Block_red] at h
    simp only [progFree] at hfree
    exact genStmtList_GenOK stmts g g' hfree h
  | IfStatement c tb eb ln =>
    rw [generate_If_red] at h
    obtain ⟨g1, h1, h2⟩ := bind_ok h
    obtain ⟨g3, h3, h4⟩ := bind_ok h2
    obtain ⟨g6, h5, h6⟩ := bind_ok h4
    injection h6 with h6
    subst h6
    simp [progFree, Bool.and_eq_true] at hfree
    have ih1 := generate_GenOK c _ g1 hfree.1.1 h1
    have ih2 := generate_GenOK tb _ g3 hfree.1.2 h3
    have ihe : GenOK (emitL
        (emitL g3 (.instr "JMP" [ctrLabel "ENDIF" (g.label_count + 1 + 1)]))
        (.label (ctrLabel "ELSE" (g.label_count + 1)))) g6 := by
      cases eb with
      | none =>
        injection h5 with h5
        subst h5
        exact GenOK.refl _
      | some e =>
        exact generate_GenOK e _ g6 (by simpa [progFreeOpt] using hfree.2) h5
    obtain ⟨hcA, hlsA, Δc, Δfc, ecA, efA, chA⟩ := ih1
    obtain ⟨hcB, hlsB, Δt, Δft, ecB, efB, chB⟩ := ih2
    obtain ⟨hcC, hlsC, Δe, Δfe, ecC, efC, chC⟩ := ihe
    -- normalise the intermediate-state projections
    replace hcA : g.label_count + 1 + 1 ≤ g1.label_count := hcA
    replace hcB : g1.label_count ≤ g3.label_count := hcB
    replace hcC : g3.label_count ≤ g6.label_count := hcC
    replace hlsA : g1.loop_stack = g.loop_stack := hlsA
    replace hlsB : g3.loop_stack = g1.loop_stack := hlsB
    replace hlsC : g6.loop_stack = g3.loop_stack := hlsC
    replace ecA : g1.code = g.code ++ Δc := ecA
    replace ecB : g3.code = g1.code ++ [.instr "JZ" [ctrLabel "ELSE" (g.label_count + 1)]]
        ++ Δt := by simpa [emitL_code, List.append_assoc] using ecB
    replace ecC : g6.code = g3.code
        ++ [.instr "JMP" [ctrLabel "ENDIF" (g.label_count + 1 + 1)]]
        ++ [.label (ctrLabel "ELSE" (g.label_count + 1))] ++ Δe := by
      simpa [emitL_code, List.append_assoc] using ecC
    replace efA : g1.function_code = g.function_code ++ Δfc := efA
    replace efB : g3.function_code = g1.function_code ++ Δft := efB
    replace efC : g6.function_code = g3.function_code ++ Δfe := efC
    replace chA : ChunkOK (g.label_count + 1 + 1) g1.label_count g.loop_stack Δc Δfc := chA
    replace chB : ChunkOK g1.label_count g3.label_count g.loop_stack Δt Δft := by
      have : ChunkOK g1.label_count g3.label_count g1.loop_stack Δt Δft := chB
      rwa [hlsA] at this
    replace chC : ChunkOK g3.label_count g6.label_count g.loop_stack Δe Δfe := by
      have : ChunkOK g3.label_count g6.label_count g3.loop_stack Δe Δfe := chC
      rwa [hlsB, hlsA] at this
    refine ⟨?_, ?_,
      Δc ++ [.instr "JZ" [ctrLabel "ELSE" (g.label_count + 1)]] ++ Δt
        ++ [.instr "JMP" [ctrLabel "ENDIF" (g.label_count + 1 + 1)]]
        ++ [.label (ctrLabel "ELSE" (g.label_count + 1))] ++ Δe
        ++ [.label (ctrLabel "ENDIF" (g.label_count + 1 + 1))],
      Δfc ++ Δft ++ Δfe, ?_, ?_, ?_⟩
    · rw [emitL_lc]; omega
    · rw [emitL_loop, hlsC, hlsB, hlsA]
    · rw [emitL_code, ecC, ecB, ecA]
      simp [List.append_assoc]
    · rw [emitL_fc, efC, efB, efA]
      simp [List.append_assoc]
    · rw [emitL_lc]
      constructor
      · intro l hl
        simp only [labelsIn_append, labelsIn_singleton_instr, labelsIn_singleton_label,
          List.append_nil, List.nil_append, List.mem_append, List.mem_singleton] at hl
        rcases hl with (((hm | hm) | hm) | hm) | hm
        · obtain ⟨p, k, hp, b1, b2, he⟩ := chA.labMain _ hm
          exact ⟨p, k, hp, by omega, by omega, he⟩
        · obtain ⟨p, k, hp, b1, b2, he⟩ := chB.labMain _ hm
          exact ⟨p, k, hp, by omega, by omega, he⟩
        · exact ⟨"ELSE", g.label_count + 1, by decide, by omega, by omega, hm⟩
        · obtain ⟨p, k, hp, b1, b2, he⟩ := chC.labMain _ hm
          exact ⟨p, k, hp, by omega, by omega, he⟩
        · exact ⟨"ENDIF", g.label_count + 1 + 1, by decide, by omega, by omega, hm⟩
      · intro l hl
        simp only [labelsIn_append, List.mem_append] at hl
        rcases hl with (hm | hm) | hm
        · rcases chA.labFunc _ hm with ⟨p, k, hp, b1, b2, he⟩ | hfn
          · exact Or.inl ⟨p, k, hp, by omega, by omega, he⟩
          · exact Or.inr hfn
        · rcases chB.labFunc _ hm with ⟨p, k, hp, b1, b2, he⟩ | hfn
          · exact Or.inl ⟨p, k, hp, by omega, by omega, he⟩
          · exact Or.inr hfn
        · rcases chC.labFunc _ hm with ⟨p, k, hp, b1, b2, he⟩ | hfn
          · exact Or.inl ⟨p, k, hp, by omega, by omega, he⟩
          · exact Or.inr hfn
      · intro p k hp
        simp only [labelsIn_append, labelsIn_singleton_instr, labelsIn_singleton_label,
          List.append_nil, List.nil_append, List.count_append]
        have hElse : List.count (ctrLabel p k) [ctrLabel "ELSE" (g.label_count + 1)] ≤ 1 :=
          count_ctr_singleton_le
        have hEnd : List.count (ctrLabel p k)
            [ctrLabel "ENDIF" (g.label_count + 1 + 1)] ≤ 1 :=
          count_ctr_singleton_le
        by_cases hk1 : k ≤ g.label_count + 1
        · have z12 : (labelsIn Δc).count (ctrLabel p k) = 0
              ∧ (labelsIn Δfc).count (ctrLabel p k) = 0 :=
            chunk_counts_zero chA hp (Or.inl (by omega))
          have z34 : (labelsIn Δt).count (ctrLabel p k) = 0
              ∧ (labelsIn Δft).count (ctrLabel p k) = 0 :=
            chunk_counts_zero chB hp (Or.inl (by omega))
          have z56 : (labelsIn Δe).count (ctrLabel p k) = 0
              ∧ (labelsIn Δfe).count (ctrLabel p k) = 0 :=
            chunk_counts_zero chC hp (Or.inl (by omega))
          have s2 : List.count (ctrLabel p k)
              [ctrLabel "ENDIF" (g.label_count + 1 + 1)] = 0 :=
            count_ctr_singleton_zero hp (by decide) (by omega)
          omega
        · by_cases hk2 : k = g.label_count + 1 + 1
          · have z12 : (labelsIn Δc).count (ctrLabel p k) = 0
                ∧ (labelsIn Δfc).count (ctrLabel p k) = 0 :=
              chunk_counts_zero chA hp (Or.inl (by omega))
            have z34 : (labelsIn Δt).count (ctrLabel p k) = 0
                ∧ (labelsIn Δft).count (ctrLabel p k) = 0 :=
              chunk_counts_zero chB hp (Or.inl (by omega))
            have z56 : (labelsIn Δe).count (ctrLabel p k) = 0
                ∧ (labelsIn Δfe).count (ctrLabel p k) = 0 :=
              chunk_counts_zero chC hp (Or.inl (by omega))
            have s1 : List.count (ctrLabel p k) [ctrLabel "ELSE" (g.label_count + 1)] = 0 :=
              count_ctr_singleton_zero hp (by decide) (by omega)
            omega
          · have s1 : List.count (ctrLabel p k) [ctrLabel "ELSE" (g.label_count + 1)] = 0 :=
              count_ctr_singleton_zero hp (by decide) (by omega)
            have s2 : List.count (ctrLabel p k)
                [ctrLabel "ENDIF" (g.label_count + 1 + 1)] = 0 :=
              count_ctr_singleton_zero hp (by decide) (by omega)
            by_cases hk3 : k ≤ g1.label_count
            · have z34 : (labelsIn Δt).count (ctrLabel p k) = 0
                  ∧ (labelsIn Δft).count (ctrLabel p k) = 0 :=
                chunk_counts_zero chB hp (Or.inl hk3)
              have z56 : (labelsIn Δe).count (ctrLabel p k) = 0
                  ∧ (labelsIn Δfe).count (ctrLabel p k) = 0 :=
                chunk_counts_zero chC hp (Or.inl (by omega))
              have hA : (labelsIn Δc).count (ctrLabel p k)
                  + (labelsIn Δfc).count (ctrLabel p k) ≤ 1 := chunk_counts_le chA hp
              omega
            · by_cases hk4 : k ≤ g3.label_count
              · have z12 : (labelsIn Δc).count (ctrLabel p k) = 0
                    ∧ (labelsIn Δfc).count (ctrLabel p k) = 0 :=
                  chunk_counts_zero chA hp (Or.inr (by omega))
                have z56 : (labelsIn Δe).count (ctrLabel p k) = 0
                    ∧ (labelsIn Δfe).count (ctrLabel p k) = 0 :=
                  chunk_counts_zero chC hp (Or.inl hk4)
                have hB : (labelsIn Δt).count (ctrLabel p k)
                    + (labelsIn Δft).count (ctrLabel p k) ≤ 1 := chunk_counts_le chB hp
                omega
              · have z12 : (labelsIn Δc).count (ctrLabel p k) = 0
                    ∧ (labelsIn Δfc).count (ctrLabel p k) = 0 :=
                  chunk_counts_zero chA hp (Or.inr (by omega))
                have z34 : (labelsIn Δt).count (ctrLabel p k) = 0
                    ∧ (labelsIn Δft).count (ctrLabel p k) = 0 :=
                  chunk_counts_zero chB hp (Or.inr (by omega))
                have hC : (labelsIn Δe).count (ctrLabel p k)
                    + (labelsIn Δfe).count (ctrLabel p k) ≤ 1 := chunk_counts_le chC hp
                omega
      · intro t ht
        have memElse : ctrLabel "ELSE" (g.label_count + 1)
            ∈ labelsIn (Δc ++ [.instr "JZ" [ctrLabel "ELSE" (g.label_count + 1)]] ++ Δt
              ++ [.instr "JMP" [ctrLabel "ENDIF" (g.label_count + 1 + 1)]]
              ++ [.label (ctrLabel "ELSE" (g.label_count + 1))] ++ Δe
              ++ [.label (ctrLabel "ENDIF" (g.label_count + 1 + 1))]) := by
          simp [labelsIn_append, labelsIn_singleton_label, labelsIn_cons_label, labelsIn_cons_instr]
        have memEnd : ctrLabel "ENDIF" (g.label_count + 1 + 1)
            ∈ labelsIn (Δc ++ [.instr "JZ" [ctrLabel "ELSE" (g.label_count + 1)]] ++ Δt
              ++ [.instr "JMP" [ctrLabel "ENDIF" (g.label_count + 1 + 1)]]
              ++ [.label (ctrLabel "ELSE" (g.label_count + 1))] ++ Δe
              ++ [.label (ctrLabel "ENDIF" (g.label_count + 1 + 1))]) := by
          simp [labelsIn_append, labelsIn_singleton_label, labelsIn_cons_label, labelsIn_cons_instr]
        simp only [jmpTargets_append, jmpTargets_JZ, jmpTargets_JMP,
          jmpTargets_singleton_label, List.append_nil, List.nil_append, List.mem_append,
          List.mem_singleton] at ht
        rcases ht with (((hm | hm) | hm) | hm) | hm
        · rcases chA.jmpsOK _ hm with hin | hloop
          · refine Or.inl ?_
            simp only [labelsIn_append, List.mem_append]
            tauto
          · exact Or.inr hloop
        · subst hm
          exact Or.inl memElse
        · rcases chB.jmpsOK _ hm with hin | hloop
          · refine Or.inl ?_
            simp only [labelsIn_append, List.mem_append]
            tauto
          · exact Or.inr hloop
        · subst hm
          exact Or.inl memEnd
        · rcases chC.jmpsOK _ hm with hin | hloop
          · refine Or.inl ?_
            simp only [labelsIn_append, List.mem_append]
            tauto
          · exact Or.inr hloop
  | WhileStatement c bd ln =>
    rw [generate_While_red] at h
    obtain ⟨g2, h1, h2⟩ := bind_ok h
    obtain ⟨g4, h3, h4⟩ := bind_ok h2
    injection h4 with h4
    subst h4
    simp [progFree, Bool.and_eq_true] at hfree
    have ih1 := generate_GenOK c _ g2 hfree.1 h1
    have ih2 := generate_GenOK bd _ g4 hfree.2 h3
    obtain ⟨hcA, hlsA, Δc, Δfc, ecA, efA, chA⟩ := ih1
    obtain ⟨hcB, hlsB, Δb, Δfb, ecB, efB, chB⟩ := ih2
    replace hcA : g.label_count + 1 + 1 ≤ g2.label_count := hcA
    replace hcB : g2.label_count ≤ g4.label_count := hcB
    replace hlsA : g2.loop_stack = g.loop_stack ++
        [(ctrLabel "WHILE_END" (g.label_count + 1 + 1),
          ctrLabel "WHILE_START" (g.label_count + 1))] := hlsA
    replace hlsB : g4.loop_stack = g2.loop_stack := hlsB
    replace ecA : g2.code = g.code
        ++ [.label (ctrLabel "WHILE_START" (g.label_count + 1))] ++ Δc := ecA
    replace ecB : g4.code = g2.code
        ++ [.instr "JMP_IF_FALSE" [ctrLabel "WHILE_END" (g.label_count + 1 + 1)]] ++ Δb := ecB
    replace efA : g2.function_code = g.function_code ++ Δfc := efA
    replace efB : g4.function_code = g2.function_code ++ Δfb := efB
    replace chA : ChunkOK (g.label_count + 1 + 1) g2.label_count
        (g.loop_stack ++ [(ctrLabel "WHILE_END" (g.label_count + 1 + 1),
          ctrLabel "WHILE_START" (g.label_count + 1))]) Δc Δfc := chA
    replace chB : ChunkOK g2.label_count g4.label_count g2.loop_stack Δb Δfb := chB
    rw [hlsA] at chB
    refine ⟨?_, ?_,
      [.label (ctrLabel "WHILE_START" (g.label_count + 1))] ++ Δc
        ++ [.instr "JMP_IF_FALSE" [ctrLabel "WHILE_END" (g.label_count + 1 + 1)]] ++ Δb
        ++ [.instr "JMP" [ctrLabel "WHILE_START" (g.label_count + 1)]]
        ++ [.label (ctrLabel "WHILE_END" (g.label_count + 1 + 1))],
      Δfc ++ Δfb, ?_, ?_, ?_⟩
    · show g.label_count ≤ g4.label_count
      omega
    · show g4.loop_stack.dropLast = g.loop_stack
      rw [hlsB, hlsA]
      exact List.dropLast_concat
    · show g4.code ++ [.instr "JMP" [ctrLabel "WHILE_START" (g.label_count + 1)]]
        ++ [.label (ctrLabel "WHILE_END" (g.label_count + 1 + 1))] = _
      rw [ecB, ecA]
      simp [List.append_assoc]
    · show g4.function_code = _
      rw [efB, efA]
      simp [List.append_assoc]
    · show ChunkOK g.label_count g4.label_count g.loop_stack _ _
      constructor
      · intro l hl
        simp only [labelsIn_append, labelsIn_singleton_instr, labelsIn_singleton_label,
          List.append_nil, List.nil_append, List.mem_append, List.mem_singleton] at hl
        rcases hl with ((hm | hm) | hm) | hm
        · exact ⟨"WHILE_START", g.label_count + 1, by decide, by omega, by omega, hm⟩
        · obtain ⟨p, k, hp, b1, b2, he⟩ := chA.labMain _ hm
          exact ⟨p, k, hp, by omega, by omega, he⟩
        · obtain ⟨p, k, hp, b1, b2, he⟩ := chB.labMain _ hm
          exact ⟨p, k, hp, by omega, by omega, he⟩
        · exact ⟨"WHILE_END", g.label_count + 1 + 1, by decide, by omega, by omega, hm⟩
      · intro l hl
        simp only [labelsIn_append, List.mem_append] at hl
        rcases hl with hm | hm
        · rcases chA.labFunc _ hm with ⟨p, k, hp, b1, b2, he⟩ | hfn
          · exact Or.inl ⟨p, k, hp, by omega, by omega, he⟩
          · exact Or.inr hfn
        · rcases chB.labFunc _ hm with ⟨p, k, hp, b1, b2, he⟩ | hfn
          · exact Or.inl ⟨p, k, hp, by omega, by omega, he⟩
          · exact Or.inr hfn
      · intro p k hp
        simp only [labelsIn_append, labelsIn_singleton_instr, labelsIn_singleton_label,
          List.append_nil, List.nil_append, List.count_append]
        have hStart : List.count (ctrLabel p k)
            [ctrLabel "WHILE_START" (g.label_count + 1)] ≤ 1 := count_ctr_singleton_le
        have hEnd : List.count (ctrLabel p k)
            [ctrLabel "WHILE_END" (g.label_count + 1 + 1)] ≤ 1 := count_ctr_singleton_le
        by_cases hk1 : k ≤ g.label_count + 1 + 1
        · have z12 : (labelsIn Δc).count (ctrLabel p k) = 0
              ∧ (labelsIn Δfc).count (ctrLabel p k) = 0 :=
            chunk_counts_zero chA hp (Or.inl (by omega))
          have z34 : (labelsIn Δb).count (ctrLabel p k) = 0
              ∧ (labelsIn Δfb).count (ctrLabel p k) = 0 :=
            chunk_counts_zero chB hp (Or.inl (by omega))
          by_cases hk2 : k = g.label_count + 1
          · have sEnd : List.count (ctrLabel p k)
                [ctrLabel "WHILE_END" (g.label_count + 1 + 1)] = 0 :=
              count_ctr_singleton_zero hp (by decide) (by omega)
            omega
          · have sStart : List.count (ctrLabel p k)
                [ctrLabel "WHILE_START" (g.label_count + 1)] = 0 :=
              count_ctr_singleton_zero hp (by decide) (by omega)
            omega
        · have sStart : List.count (ctrLabel p k)
              [ctrLabel "WHILE_START" (g.label_count + 1)] = 0 :=
            count_ctr_singleton_zero hp (by decide) (by omega)
          have sEnd : List.count (ctrLabel p k)
              [ctrLabel "WHILE_END" (g.label_count + 1 + 1)] = 0 :=
            count_ctr_singleton_zero hp (by decide) (by omega)
          by_cases hk3 : k ≤ g2.label_count
          · have z34 : (labelsIn Δb).count (ctrLabel p k) = 0
                ∧ (labelsIn Δfb).count (ctrLabel p k) = 0 :=
              chunk_counts_zero chB hp (Or.inl hk3)
            have hA : (labelsIn Δc).count (ctrLabel p k)
                + (labelsIn Δfc).count (ctrLabel p k) ≤ 1 := chunk_counts_le chA hp
            omega
          · have z12 : (labelsIn Δc).count (ctrLabel p k) = 0
                ∧ (labelsIn Δfc).count (ctrLabel p k) = 0 :=
              chunk_counts_zero chA hp (Or.inr (by omega))
            have hB : (labelsIn Δb).count (ctrLabel p k)
                + (labelsIn Δfb).count (ctrLabel p k) ≤ 1 := chunk_counts_le chB hp
            omega
      · intro t ht
        have memStart : ctrLabel "WHILE_START" (g.label_count + 1)
            ∈ labelsIn ([.label (ctrLabel "WHILE_START" (g.label_count + 1))] ++ Δc
              ++ [.instr "JMP_IF_FALSE" [ctrLabel "WHILE_END" (g.label_count + 1 + 1)]] ++ Δb
              ++ [.instr "JMP" [ctrLabel "WHILE_START" (g.label_count + 1)]]
              ++ [.label (ctrLabel "WHILE_END" (g.label_count + 1 + 1))]) := by
          simp [labelsIn_append, labelsIn_singleton_label, labelsIn_cons_label,
            labelsIn_cons_instr]
        have memEndW : ctrLabel "WHILE_END" (g.label_count + 1 + 1)
            ∈ labelsIn ([.label (ctrLabel "WHILE_START" (g.label_count + 1))] ++ Δc
              ++ [.instr "JMP_IF_FALSE" [ctrLabel "WHILE_END" (g.label_count + 1 + 1)]] ++ Δb
              ++ [.instr "JMP" [ctrLabel "WHILE_START" (g.label_count + 1)]]
              ++ [.label (ctrLabel "WHILE_END" (g.label_count + 1 + 1))]) := by
          simp [labelsIn_append, labelsIn_singleton_label, labelsIn_cons_label,
            labelsIn_cons_instr]
        simp only [jmpTargets_append, jmpTargets_JIF, jmpTargets_JMP,
          jmpTargets_singleton_label, List.append_nil, List.nil_append, List.mem_append,
          List.mem_singleton] at ht
        rcases ht with ((hm | hm) | hm) | hm
        · rcases chA.jmpsOK _ hm with hin | hloop
          · refine Or.inl ?_
            simp only [labelsIn_append, List.mem_append]
            tauto
          · rw [loopLabels_concat] at hloop
            rcases List.mem_append.1 hloop with hl2 | hl2
            · exact Or.inr hl2
            · simp only [List.mem_cons, List.not_mem_nil, or_false] at hl2
              rcases hl2 with rfl | rfl
              · exact Or.inl memEndW
              · exact Or.inl memStart
        · subst hm
          exact Or.inl memEndW
        · rcases chB.jmpsOK _ hm with hin | hloop
          · refine Or.inl ?_
            simp only [labelsIn_append, List.mem_append]
            tauto
          · rw [loopLabels_concat] at hloop
            rcases List.mem_append.1 hloop with hl2 | hl2
            · exact Or.inr hl2
            · simp only [List.mem_cons, List.not_mem_nil, or_false] at hl2
              rcases hl2 with rfl | rfl
              · exact Or.inl memEndW
              · exact Or.inl memStart
        · subst hm
          exact Or.inl memStart
  | ForStatement init cond upd bd ln =>
    rw [generate_For_red] at h
    obtain ⟨gI, hI, h2⟩ := bind_ok h
    obtain ⟨g2, hC, h3⟩ := bind_ok h2
    obtain ⟨g3, hB, h4⟩ := bind_ok h3
    obtain ⟨g5, hU, h5⟩ := bind_ok h4
    injection h5 with h5
    subst h5
    simp [progFree, Bool.and_eq_true] at hfree
    have ihI : GenOK g gI := by
      cases init with
      | none =>
        injection hI with hI
        subst hI
        exact GenOK.refl _
      | some n =>
        exact generate_GenOK n _ gI (by simpa [progFreeOpt] using hfree.1.1.1) hI
    have ihC : GenOK (emitL
        { gI with
            label_count := gI.label_count + 1 + 1 + 1
            loop_stack := gI.loop_stack ++
              [(ctrLabel "FOR_END" (gI.label_count + 1 + 1),
                ctrLabel "FOR_UPDATE" (gI.label_count + 1 + 1 + 1))] }
        (.label (ctrLabel "FOR_START" (gI.label_count + 1)))) g2 := by
      cases cond with
      | none =>
        injection hC with hC
        subst hC
        exact GenOK.refl _
      | some cn =>
        replace hC : (generate cn (emitL
            { gI with
                label_count := gI.label_count + 1 + 1 + 1
                loop_stack := gI.loop_stack ++
                  [(ctrLabel "FOR_END" (gI.label_count + 1 + 1),
                    ctrLabel "FOR_UPDATE" (gI.label_count + 1 + 1 + 1))] }
            (.label (ctrLabel "FOR_START" (gI.label_count + 1))))) >>= (fun gc =>
              Except.ok (emitL gc
                (.instr "JMP_IF_FALSE" [ctrLabel "FOR_END" (gI.label_count + 1 + 1)])))
            = .ok g2 := hC
        obtain ⟨gc, hgc, hg2⟩ := bind_ok hC
        injection hg2 with hg2
        subst hg2
        have ihc := generate_GenOK cn _ gc (by simpa [progFreeOpt] using hfree.1.1.2) hgc
        refine ihc.trans ⟨le_refl _, rfl,
          [.instr "JMP_IF_FALSE" [ctrLabel "FOR_END" (gI.label_count + 1 + 1)]], [],
          rfl, by simp [emitL], ChunkOK.jmpLoop rfl rfl ?_⟩
        rw [ihc.loop_eq]
        show ctrLabel "FOR_END" (gI.label_count + 1 + 1) ∈ loopLabels (gI.loop_stack ++
          [(ctrLabel "FOR_END" (gI.label_count + 1 + 1),
            ctrLabel "FOR_UPDATE" (gI.label_count + 1 + 1 + 1))])
        rw [loopLabels_concat]
        simp
    have ihB : GenOK g2 g3 := generate_GenOK bd _ g3 hfree.2 hB
    have ihU : GenOK (emitL g3
        (.label (ctrLabel "FOR_UPDATE" (gI.label_count + 1 + 1 + 1)))) g5 := by
      cases upd with
      | none =>
        injection hU with hU
        subst hU
        exact GenOK.refl _
      | some un =>
        exact generate_GenOK un _ g5 (by simpa [progFreeOpt] using hfree.1.2) hU
    obtain ⟨hcI, hlsI, ΔI, ΔfI, ecI, efI, chI⟩ := ihI
    obtain ⟨hcC, hlsC, ΔC, ΔfC, ecC, efC, chC⟩ := ihC
    obtain ⟨hcB, hlsB, ΔB, ΔfB, ecB, efB, chB⟩ := ihB
    obtain ⟨hcU, hlsU, ΔU, ΔfU, ecU, efU, chU⟩ := ihU
    replace hcI : g.label_count ≤ gI.label_count := hcI
    replace hcC : gI.label_count + 1 + 1 + 1 ≤ g2.label_count := hcC
    replace hcB : g2.label_count ≤ g3.label_count := hcB
    replace hcU : g3.label_count ≤ g5.label_count := hcU
    replace hlsI : gI.loop_stack = g.loop_stack := hlsI
    replace hlsC : g2.loop_stack = gI.loop_stack ++
        [(ctrLabel "FOR_END" (gI.label_count + 1 + 1),
          ctrLabel "FOR_UPDATE" (gI.label_count + 1 + 1 + 1))] := hlsC
    replace hlsB : g3.loop_stack = g2.loop_stack := hlsB
    replace hlsU : g5.loop_stack = g3.loop_stack := hlsU
    replace ecI : gI.code = g.code ++ ΔI := ecI
    replace ecC : g2.code = gI.code
        ++ [.label (ctrLabel "FOR_START" (gI.label_count + 1))] ++ ΔC := ecC
    replace ecB : g3.code = g2.code ++ ΔB := ecB
    replace ecU : g5.code = g3.code
        ++ [.label (ctrLabel "FOR_UPDATE" (gI.label_count + 1 + 1 + 1))] ++ ΔU := ecU
    replace efI : gI.function_code = g.function_code ++ ΔfI := efI
    replace efC : g2.function_code = gI.function_code ++ ΔfC := efC
    replace efB : g3.function_code = g2.function_code ++ ΔfB := efB
    replace efU : g5.function_code = g3.function_code ++ ΔfU := efU
    replace chI : ChunkOK g.label_count gI.label_count g.loop_stack ΔI ΔfI := chI
    replace chC : ChunkOK (gI.label_count + 1 + 1 + 1) g2.label_count
        (gI.loop_stack ++ [(ctrLabel "FOR_END" (gI.label_count + 1 + 1),
          ctrLabel "FOR_UPDATE" (gI.label_count + 1 + 1 + 1))]) ΔC ΔfC := chC
    replace chB : ChunkOK g2.label_count g3.label_count g2.loop_stack ΔB ΔfB := chB
    replace chU : ChunkOK g3.label_count g5.label_count g3.loop_stack ΔU ΔfU := chU
    rw [hlsI] at chC
    rw [hlsC, hlsI] at chB
    rw [hlsB, hlsC, hlsI] at chU
    refine ⟨?_, ?_,
      ΔI ++ [.label (ctrLabel "FOR_START" (gI.label_count + 1))] ++ ΔC ++ ΔB
        ++ [.label (ctrLabel "FOR_UPDATE" (gI.label_count + 1 + 1 + 1))] ++ ΔU
        ++ [.instr "JMP" [ctrLabel "FOR_START" (gI.label_count + 1)]]
        ++ [.label (ctrLabel "FOR_END" (gI.label_count + 1 + 1))],
      ΔfI ++ ΔfC ++ ΔfB ++ ΔfU, ?_, ?_, ?_⟩
    · show g.label_count ≤ g5.label_count
      omega
    · show g5.loop_stack.dropLast = g.loop_stack
      rw [hlsU, hlsB, hlsC, List.dropLast_concat]
      exact hlsI
    · show g5.code ++ [.instr "JMP" [ctrLabel "FOR_START" (gI.label_count + 1)]]
        ++ [.label (ctrLabel "FOR_END" (gI.label_count + 1 + 1))] = _
      rw [ecU, ecB, ecC, ecI]
      simp [List.append_assoc]
    · show g5.function_code = _
      rw [efU, efB, efC, efI]
      simp [List.append_assoc]
    · show ChunkOK g.label_count g5.label_count g.loop_stack _ _
      constructor
      · intro l hl
        simp only [labelsIn_append, labelsIn_singleton_instr, labelsIn_singleton_label,
          List.append_nil, List.nil_append, List.mem_append, List.mem_singleton] at hl
        rcases hl with (((((hm | hm) | hm) | hm) | hm) | hm) | hm
        · obtain ⟨p, k, hp, b1, b2, he⟩ := chI.labMain _ hm
          exact ⟨p, k, hp, by omega, by omega, he⟩
        · exact ⟨"FOR_START", gI.label_count + 1, by decide, by omega, by omega, hm⟩
        · obtain ⟨p, k, hp, b1, b2, he⟩ := chC.labMain _ hm
          exact ⟨p, k, hp, by omega, by omega, he⟩
        · obtain ⟨p, k, hp, b1, b2, he⟩ := chB.labMain _ hm
          exact ⟨p, k, hp, by omega, by omega, he⟩
        · exact ⟨"FOR_UPDATE", gI.label_count + 1 + 1 + 1, by decide, by omega, by omega, hm⟩
        · obtain ⟨p, k, hp, b1, b2, he⟩ := chU.labMain _ hm
          exact ⟨p, k, hp, by omega, by omega, he⟩
        · exact ⟨"FOR_END", gI.label_count + 1 + 1, by decide, by omega, by omega, hm⟩
      · intro l hl
        simp only [labelsIn_append, List.mem_append] at hl
        rcases hl with ((hm | hm) | hm) | hm
        · rcases chI.labFunc _ hm with ⟨p, k, hp, b1, b2, he⟩ | hfn
          · exact Or.inl ⟨p, k, hp, by omega, by omega, he⟩
          · exact Or.inr hfn
        · rcases chC.labFunc _ hm with ⟨p, k, hp, b1, b2, he⟩ | hfn
          · exact Or.inl ⟨p, k, hp, by omega, by omega, he⟩
          · exact Or.inr hfn
        · rcases chB.labFunc _ hm with ⟨p, k, hp, b1, b2, he⟩ | hfn
          · exact Or.inl ⟨p, k, hp, by omega, by omega, he⟩
          · exact Or.inr hfn
        · rcases chU.labFunc _ hm with ⟨p, k, hp, b1, b2, he⟩ | hfn
          · exact Or.inl ⟨p, k, hp, by omega, by omega, he⟩
          · exact Or.inr hfn
      · intro p k hp
        simp only [labelsIn_append, labelsIn_singleton_instr, labelsIn_singleton_label,
          List.append_nil, List.nil_append, List.count_append]
        have hS1 : List.count (ctrLabel p k)
            [ctrLabel "FOR_START" (gI.label_count + 1)] ≤ 1 := count_ctr_singleton_le
        have hU1 : List.count (ctrLabel p k)
            [ctrLabel "FOR_UPDATE" (gI.label_count + 1 + 1 + 1)] ≤ 1 := count_ctr_singleton_le
        have hE1 : List.count (ctrLabel p k)
            [ctrLabel "FOR_END" (gI.label_count + 1 + 1)] ≤ 1 := count_ctr_singleton_le
        by_cases hk0 : k ≤ gI.label_count
        · have sS0 : List.count (ctrLabel p k)
              [ctrLabel "FOR_START" (gI.label_count + 1)] = 0 :=
            count_ctr_singleton_zero hp (by decide) (by omega)
          have sU0 : List.count (ctrLabel p k)
              [ctrLabel "FOR_UPDATE" (gI.label_count + 1 + 1 + 1)] = 0 :=
            count_ctr_singleton_zero hp (by decide) (by omega)
          have sE0 : List.count (ctrLabel p k)
              [ctrLabel "FOR_END" (gI.label_count + 1 + 1)] = 0 :=
            count_ctr_singleton_zero hp (by decide) (by omega)
          have zC : (labelsIn ΔC).count (ctrLabel p k) = 0
              ∧ (labelsIn ΔfC).count (ctrLabel p k) = 0 :=
            chunk_counts_zero chC hp (Or.inl (by omega))
          have zB : (labelsIn ΔB).count (ctrLabel p k) = 0
              ∧ (labelsIn ΔfB).count (ctrLabel p k) = 0 :=
            chunk_counts_zero chB hp (Or.inl (by omega))
          have zU : (labelsIn ΔU).count (ctrLabel p k) = 0
              ∧ (labelsIn ΔfU).count (ctrLabel p k) = 0 :=
            chunk_counts_zero chU hp (Or.inl (by omega))
          have hIc : (labelsIn ΔI).count (ctrLabel p k)
              + (labelsIn ΔfI).count (ctrLabel p k) ≤ 1 := chunk_counts_le chI hp
          omega
        · have zI : (labelsIn ΔI).count (ctrLabel p k) = 0
              ∧ (labelsIn ΔfI).count (ctrLabel p k) = 0 :=
            chunk_counts_zero chI hp (Or.inr (by omega))
          by_cases hk1 : k = gI.label_count + 1
          · have sU0 : List.count (ctrLabel p k)
                [ctrLabel "FOR_UPDATE" (gI.label_count + 1 + 1 + 1)] = 0 :=
              count_ctr_singleton_zero hp (by decide) (by omega)
            have sE0 : List.count (ctrLabel p k)
                [ctrLabel "FOR_END" (gI.label_count + 1 + 1)] = 0 :=
              count_ctr_singleton_zero hp (by decide) (by omega)
            have zC : (labelsIn ΔC).count (ctrLabel p k) = 0
                ∧ (labelsIn ΔfC).count (ctrLabel p k) = 0 :=
              chunk_counts_zero chC hp (Or.inl (by omega))
            have zB : (labelsIn ΔB).count (ctrLabel p k) = 0
                ∧ (labelsIn ΔfB).count (ctrLabel p k) = 0 :=
              chunk_counts_zero chB hp (Or.inl (by omega))
            have zU : (labelsIn ΔU).count (ctrLabel p k) = 0
                ∧ (labelsIn ΔfU).count (ctrLabel p k) = 0 :=
              chunk_counts_zero chU hp (Or.inl (by omega))
            omega
          · by_cases hk2 : k = gI.label_count + 1 + 1
            · have sS0 : List.count (ctrLabel p k)
                  [ctrLabel "FOR_START" (gI.label_count + 1)] = 0 :=
                count_ctr_singleton_zero hp (by decide) (by omega)
              have sU0 : List.count (ctrLabel p k)
                  [ctrLabel "FOR_UPDATE" (gI.label_count + 1 + 1 + 1)] = 0 :=
                count_ctr_singleton_zero hp (by decide) (by omega)
              have zC : (labelsIn ΔC).count (ctrLabel p k) = 0
                  ∧ (labelsIn ΔfC).count (ctrLabel p k) = 0 :=
                chunk_counts_zero chC hp (Or.inl (by omega))
              have zB : (labelsIn ΔB).count (ctrLabel p k) = 0
                  ∧ (labelsIn ΔfB).count (ctrLabel p k) = 0 :=
                chunk_counts_zero chB hp (Or.inl (by omega))
              have zU : (labelsIn ΔU).count (ctrLabel p k) = 0
                  ∧ (labelsIn ΔfU).count (ctrLabel p k) = 0 :=
                chunk_counts_zero chU hp (Or.inl (by omega))
              omega
            · by_cases hk3 : k = gI.label_count + 1 + 1 + 1
              · have sS0 : List.count (ctrLabel p k)
                    [ctrLabel "FOR_START" (gI.label_count + 1)] = 0 :=
                  count_ctr_singleton_zero hp (by decide) (by omega)
                have sE0 : List.count (ctrLabel p k)
                    [ctrLabel "FOR_END" (gI.label_count + 1 + 1)] = 0 :=
                  count_ctr_singleton_zero hp (by decide) (by omega)
                have zC : (labelsIn ΔC).count (ctrLabel p k) = 0
                    ∧ (labelsIn ΔfC).count (ctrLabel p k) = 0 :=
                  chunk_counts_zero chC hp (Or.inl (by omega))
                have zB : (labelsIn ΔB).count (ctrLabel p k) = 0
                    ∧ (labelsIn ΔfB).count (ctrLabel p k) = 0 :=
                  chunk_counts_zero chB hp (Or.inl (by omega))
                have zU : (labelsIn ΔU).count (ctrLabel p k) = 0
                    ∧ (labelsIn ΔfU).count (ctrLabel p k) = 0 :=
                  chunk_counts_zero chU hp (Or.inl (by omega))
                omega
              · have sS0 : List.count (ctrLabel p k)
                    [ctrLabel "FOR_START" (gI.label_count + 1)] = 0 :=
                  count_ctr_singleton_zero hp (by decide) (by omega)
                have sU0 : List.count (ctrLabel p k)
                    [ctrLabel "FOR_UPDATE" (gI.label_count + 1 + 1 + 1)] = 0 :=
                  count_ctr_singleton_zero hp (by decide) (by omega)
                have sE0 : List.count (ctrLabel p k)
                    [ctrLabel "FOR_END" (gI.label_count + 1 + 1)] = 0 :=
                  count_ctr_singleton_zero hp (by decide) (by omega)
                by_cases hk4 : k ≤ g2.label_count
                · have zB : (labelsIn ΔB).count (ctrLabel p k) = 0
                      ∧ (labelsIn ΔfB).count (ctrLabel p k) = 0 :=
                    chunk_counts_zero chB hp (Or.inl hk4)
                  have zU : (labelsIn ΔU).count (ctrLabel p k) = 0
                      ∧ (labelsIn ΔfU).count (ctrLabel p k) = 0 :=
                    chunk_counts_zero chU hp (Or.inl (by omega))
                  have hCc : (labelsIn ΔC).count (ctrLabel p k)
                      + (labelsIn ΔfC).count (ctrLabel p k) ≤ 1 := chunk_counts_le chC hp
                  omega
                · by_cases hk5 : k ≤ g3.label_count
                  · have zC : (labelsIn ΔC).count (ctrLabel p k) = 0
                        ∧ (labelsIn ΔfC).count (ctrLabel p k) = 0 :=
                      chunk_counts_zero chC hp (Or.inr (by omega))
                    have zU : (labelsIn ΔU).count (ctrLabel p k) = 0
                        ∧ (labelsIn ΔfU).count (ctrLabel p k) = 0 :=
                      chunk_counts_zero chU hp (Or.inl hk5)
                    have hBc : (labelsIn ΔB).count (ctrLabel p k)
                        + (labelsIn ΔfB).count (ctrLabel p k) ≤ 1 := chunk_counts_le chB hp
                    omega
                  · have zC : (labelsIn ΔC).count (ctrLabel p k) = 0
                        ∧ (labelsIn ΔfC).count (ctrLabel p k) = 0 :=
                      chunk_counts_zero chC hp (Or.inr (by omega))
                    have zB : (labelsIn ΔB).count (ctrLabel p k) = 0
                        ∧ (labelsIn ΔfB).count (ctrLabel p k) = 0 :=
                      chunk_counts_zero chB hp (Or.inr (by omega))
                    have hUc : (labelsIn ΔU).count (ctrLabel p k)
                        + (labelsIn ΔfU).count (ctrLabel p k) ≤ 1 := chunk_counts_le chU hp
                    omega
      · intro t ht
        have memStartF : ctrLabel "FOR_START" (gI.label_count + 1)
            ∈ labelsIn (ΔI ++ [.label (ctrLabel "FOR_START" (gI.label_count + 1))] ++ ΔC ++ ΔB
              ++ [.label (ctrLabel "FOR_UPDATE" (gI.label_count + 1 + 1 + 1))] ++ ΔU
              ++ [.instr "JMP" [ctrLabel "FOR_START" (gI.label_count + 1)]]
              ++ [.label (ctrLabel "FOR_END" (gI.label_count + 1 + 1))]) := by
          simp [labelsIn_append, labelsIn_singleton_label, labelsIn_cons_label,
            labelsIn_cons_instr]
        have memUpdF : ctrLabel "FOR_UPDATE" (gI.label_count + 1 + 1 + 1)
            ∈ labelsIn (ΔI ++ [.label (ctrLabel "FOR_START" (gI.label_count + 1))] ++ ΔC ++ ΔB
              ++ [.label (ctrLabel "FOR_UPDATE" (gI.label_count + 1 + 1 + 1))] ++ ΔU
              ++ [.instr "JMP" [ctrLabel "FOR_START" (gI.label_count + 1)]]
              ++ [.label (ctrLabel "FOR_END" (gI.label_count + 1 + 1))]) := by
          simp [labelsIn_append, labelsIn_singleton_label, labelsIn_cons_label,
            labelsIn_cons_instr]
        have memEndF : ctrLabel "FOR_END" (gI.label_count + 1 + 1)
            ∈ labelsIn (ΔI ++ [.label (ctrLabel "FOR_START" (gI.label_count + 1))] ++ ΔC ++ ΔB
              ++ [.label (ctrLabel "FOR_UPDATE" (gI.label_count + 1 + 1 + 1))] ++ ΔU
              ++ [.instr "JMP" [ctrLabel "FOR_START" (gI.label_count + 1)]]
              ++ [.label (ctrLabel "FOR_END" (gI.label_count + 1 + 1))]) := by
          simp [labelsIn_append, labelsIn_singleton_label, labelsIn_cons_label,
            labelsIn_cons_instr]
        simp only [jmpTargets_append, jmpTargets_JMP, jmpTargets_singleton_label,
          List.append_nil, List.nil_append, List.mem_append, List.mem_singleton] at ht
        rcases ht with (((hm | hm) | hm) | hm) | hm
        · rcases chI.jmpsOK _ hm with hin | hloop
          · refine Or.inl ?_
            simp only [labelsIn_append, List.mem_append]
            tauto
          · exact Or.inr hloop
        · rcases chC.jmpsOK _ hm with hin | hloop
          · refine Or.inl ?_
            simp only [labelsIn_append, List.mem_append]
            tauto
          · rw [loopLabels_concat] at hloop
            rcases List.mem_append.1 hloop with hl2 | hl2
            · exact Or.inr hl2
            · simp only [List.mem_cons, List.not_mem_nil, or_false] at hl2
              rcases hl2 with rfl | rfl
              · exact Or.inl memEndF
              · exact Or.inl memUpdF
        · rcases chB.jmpsOK _ hm with hin | hloop
          · refine Or.inl ?_
            simp only [labelsIn_append, List.mem_append]
            tauto
          · rw [loopLabels_concat] at hloop
            rcases List.mem_append.1 hloop with hl2 | hl2
            · exact Or.inr hl2
            · simp only [List.mem_cons, List.not_mem_nil, or_false] at hl2
              rcases hl2 with rfl | rfl
              · exact Or.inl memEndF
              · exact Or.inl memUpdF
        · rcases chU.jmpsOK _ hm with hin | hloop
          · refine Or.inl ?_
            simp only [labelsIn_append, List.mem_append]
            tauto
          · rw [loopLabels_concat] at hloop
            rcases List.mem_append.1 hloop with hl2 | hl2
            · exact Or.inr hl2
            · simp only [List.mem_cons, List.not_mem_nil, or_false] at hl2
              rcases hl2 with rfl | rfl
              · exact Or.inl memEndF
              · exact Or.inl memUpdF
        · subst hm
          exact Or.inl memStartF
  | FunctionDef nm ps bd ln =>
    simp [progFree, Bool.and_eq_true] at hfree
    cases bd with
    | Block stmts bl =>
      rw [generate_FunctionDef_red] at h
      obtain ⟨gD, hD, hok⟩ := bind_ok h
      replace hok : Except.ok
          { emitL (emitL gD (.instr "PUSH" ["0"])) (.instr "RET" []) with
            function_code := gD.function_code ++ (gD.code ++ [.instr "PUSH" ["0"]]
              ++ [.instr "RET" []]),
            code := g.code } = Except.ok g' := hok
      injection hok with hok
      have hentry : funcEntrySt g nm ps
          = { g with code := Line.label ("FUNC_" ++ nm)
              :: ps.reverse.map fun p => Line.instr "STORE" [paramName p] } := by
        rw [funcEntrySt, foldl_emit_store]
        rfl
      have hfree2 : progFreeList stmts = true := by
        simpa [progFree] using hfree.2
      have ih := genStmtList_GenOK stmts (funcEntrySt g nm ps) gD hfree2 hD
      rw [hentry] at ih
      obtain ⟨hc, hls, ΔD, ΔfD, hcode, hfc, hch⟩ := ih
      simp only at hc hls hcode hfc hch
      subst hok
      refine ⟨hc, by simp [emitL, hls], [],
        ΔfD ++ [Line.label ("FUNC_" ++ nm)]
          ++ (ps.reverse.map fun p => Line.instr "STORE" [paramName p])
          ++ ΔD ++ [.instr "PUSH" ["0"]] ++ [.instr "RET" []], by simp [emitL], ?_, ?_⟩
      · simp only [emitL, hfc, hcode]
        simp
      · constructor
        · intro l hl
          simp [labelsIn] at hl
        · intro l hl
          simp only [labelsIn_append, labelsIn_singleton_label, labelsIn_singleton_instr,
            labelsIn_store_map, List.append_nil, List.nil_append, List.mem_append] at hl
          rcases hl with (hm | hm) | hm
          · exact hch.labFunc _ hm
          · exact Or.inr ⟨nm, List.mem_singleton.1 hm⟩
          · exact Or.inl (hch.labMain _ hm)
        · intro p k hp
          have hco := hch.ctrOnce p k hp
          rw [List.count_append] at hco
          have hne : (("FUNC_" ++ nm : String) == ctrLabel p k) = false := by
            rw [beq_eq_false_iff_ne]
            exact funcLabel_ne_ctrLabel hp nm k
          simp only [labelsIn_nil, List.nil_append, labelsIn_append, labelsIn_singleton_label,
            labelsIn_store_map, labelsIn_singleton_instr, List.count_append, List.count_cons,
            List.count_nil, List.append_nil, hne, if_false]
          simp only [Bool.false_eq_true, if_false]
          omega
        · intro t ht
          simp [jmpTargets] at ht
    | Program s l => exact Except.noConfusion h
    | Literal v l => exact Except.noConfusion h
    | Identifier n2 l => exact Except.noConfusion h
    | BinOp o a b2 l => exact Except.noConfusion h
    | UnaryOp o e l => exact Except.noConfusion h
    | Assignment t v l => exact Except.noConfusion h
    | ExprStatement e l => exact Except.noConfusion h
    | IfStatement c2 t e l => exact Except.noConfusion h
    | WhileStatement c2 b2 l => exact Except.noConfusion h
    | ForStatement i c2 u b2 l => exact Except.noConfusion h
    | FunctionDef n2 p b2 l => exact Except.noConfusion h
    | FunCall n2 a l => exact Except.noConfusion h
    | ReturnStatement v l => exact Except.noConfusion h
    | ControlFlow k l => exact Except.noConfusion h
  | FunCall nmN args ln =>
    rw [generate_FunCall_red] at h
    obtain ⟨g1, h1, h2⟩ := bind_ok h
    obtain ⟨nm, h3, h4⟩ := bind_ok h2
    simp [progFree, Bool.and_eq_true] at hfree
    injection h4 with h4
    subst h4
    exact (genStmtList_GenOK args g g1 hfree.2 h1).emit_plain _ rfl rfl
  | ReturnStatement v ln =>
    rw [generate_Return_red] at h
    obtain ⟨g1, h1, h2⟩ := bind_ok h
    injection h2 with h2
    subst h2
    simp only [progFree] at hfree
    have ihv : GenOK g g1 := by
      cases v with
      | none =>
        injection h1 with h1
        subst h1
        exact (GenOK.refl g).emit_plain _ rfl rfl
      | some n =>
        simp only [progFreeOpt] at hfree
        exact generate_GenOK n g g1 hfree h1
    exact ihv.emit_plain _ rfl rfl
  | ControlFlow kw ln =>
    rw [generate_ControlFlow_red] at h
    cases hls : g.loop_stack.getLast? with
    | none => rw [hls] at h; exact Except.noConfusion h
    | some p =>
      obtain ⟨bl, cl⟩ := p
      rw [hls] at h
      replace h : (if kw = "break" then Except.ok (emitL g (.instr "JMP" [bl]))
          else Except.ok (emitL g (.instr "JMP" [cl]))) = .ok g' := h
      have hmem := loopLabels_getLast hls
      by_cases hkw : kw = "break"
      · rw [if_pos hkw] at h
        injection h with h
        subst h
        exact ⟨le_refl _, rfl, [.instr "JMP" [bl]], [], rfl, by simp [emitL],
          ChunkOK.jmpLoop rfl rfl hmem.1⟩
      · rw [if_neg hkw] at h
        injection h with h
        subst h
        exact ⟨le_refl _, rfl, [.instr "JMP" [cl]], [], rfl, by simp [emitL],
          ChunkOK.jmpLoop rfl rfl hmem.2⟩
termination_by sizeOf n

theorem genStmtList_GenOK (l : List Node) (g g' : CodeGenSt)
    (hfree : progFreeList l = true) (h : genStmtList l g = .ok g') : GenOK g g' := by
  cases l with
  | nil =>
    injection h with h
    subst h
    exact GenOK.refl g
  | cons n rest =>
    rw [genStmtList_cons_red] at h
    obtain ⟨g1, h1, h2⟩ := bind_ok h
    simp [progFreeList, Bool.and_eq_true] at hfree
    exact (generate_GenOK n g g1 hfree.1 h1).trans
      (genStmtList_GenOK rest g1 g' hfree.2 h2)
termination_by sizeOf l

theorem genMainStmts_GenOK (l : List Node) (g g' : CodeGenSt)
    (hfree : progFreeList l = true) (h : genMainStmts l g = .ok g') : GenOK g g' := by
  cases l with
  | nil =>
    injection h with h
    subst h
    exact GenOK.refl g
  | cons n rest =>
    rw [genMainStmts_cons_red] at h
    simp [progFreeList, Bool.and_eq_true] at hfree
    by_cases hfn : isFunctionDef n
    · rw [if_pos hfn] at h
      exact genMainStmts_GenOK rest g g' hfree.2 h
    · rw [if_neg hfn] at h
      obtain ⟨g1, h1, h2⟩ := bind_ok h
      exact (generate_GenOK n g g1 hfree.1 h1).trans
        (genMainStmts_GenOK rest g1 g' hfree.2 h2)
termination_by sizeOf l

end

theorem genOKF_refl (g : CodeGenSt) : GenOKF g g :=
  ⟨le_refl _, rfl, rfl, [], by simp, ChunkOK.nil⟩

theorem genOKF_trans {g g₁ g₂ : CodeGenSt} (h1 : GenOKF g g₁) (h2 : GenOKF g₁ g₂) :
    GenOKF g g₂ := by
  obtain ⟨hc1, hls1, hcode1, Δf₁, hfc1, hch1⟩ := h1
  obtain ⟨hc2, hls2, hcode2, Δf₂, hfc2, hch2⟩ := h2
  refine ⟨le_trans hc1 hc2, hls2.trans hls1, hcode2.trans hcode1, Δf₁ ++ Δf₂, ?_, ?_⟩
  · rw [hfc2, hfc1, List.append_assoc]
  · rw [hls1] at hch2
    exact ChunkOK.comp hch1 hch2 hc1 hc2

/-- A `generate` call that left the main buffer unchanged emitted only
    function code. -/
theorem GenOK.toF {g g' : CodeGenSt} (h : GenOK g g') (hc : g'.code = g.code) :
    GenOKF g g' := by
  obtain ⟨hle, hls, Δ, Δf, hcode, hfc, hch⟩ := h
  have hΔ : Δ = [] := by
    have hlen := congrArg List.length (hc.symm.trans hcode)
    rw [List.length_append] at hlen
    have hz : Δ.length = 0 := by omega
    exact List.length_eq_zero.mp hz
  subst hΔ
  exact ⟨hle, hls, hc, Δf, hfc, hch⟩

theorem isFunctionDef_shape {n : Node} (h : isFunctionDef n = true) :
    ∃ nm ps b ln, n = .FunctionDef nm ps b ln := by
  cases n <;> first
    | exact ⟨_, _, _, _, rfl⟩
    | exact Bool.noConfusion h

/-- `gen_Program`'s second loop only appends well-formed function code. -/
theorem genFuncStmts_GenOKF (l : List Node) (g g' : CodeGenSt)
    (hfree : progFreeList l = true) (h : genFuncStmts l g = .ok g') : GenOKF g g' := by
  induction l generalizing g with
  | nil =>
    injection h with h
    subst h
    exact genOKF_refl g
  | cons n rest ih =>
    rw [genFuncStmts_cons_red] at h
    simp [progFreeList, Bool.and_eq_true] at hfree
    by_cases hfn : isFunctionDef n
    · rw [if_pos hfn] at h
      obtain ⟨g1, h1, h2⟩ := bind_ok h
      obtain ⟨nm, ps, b, ln2, rfl⟩ := isFunctionDef_shape hfn
      exact genOKF_trans ((generate_GenOK _ g g1 hfree.1 h1).toF
        (generate_FunctionDef_code h1)) (ih g1 hfree.2 h2)
    · rw [if_neg hfn] at h
      exact ih g hfree.2 h

/-! ## Non-`CALL` VM steps stay in the main segment -/

theorem stepOf_cont {r : Except Exn Machine} {mm : Machine} (h : stepOf r = .cont mm) :
    r = .ok mm := by
  cases r with
  | ok x => simpa [stepOf] using h
  | error e => simp [stepOf] at h

/-- Every successful outcome of the VM's arithmetic/comparison/logic
    dispatch only replaces the operand stack. -/
theorem arith_group_shape (op : String) (a b : PyVal) (m2 mm : Machine)
    (h : (if op = "ADD" then
        if ¬(isNumV a && isNumV b) then
          Except.error (Exn.runtimeError ("Cannot add " ++ typeName a ++ " and " ++ typeName b))
        else .ok { m2 with stack := numBin (· + ·) (· + ·) a b :: m2.stack }
      else if op = "SUB" then
        if ¬(isNumV a && isNumV b) then
          Except.error
            (Exn.runtimeError ("Cannot subtract " ++ typeName a ++ " and " ++ typeName b))
        else .ok { m2 with stack := numBin (· - ·) (· - ·) a b :: m2.stack }
      else if op = "MUL" then do
        let v ← pyMul a b
        .ok { m2 with stack := v :: m2.stack }
      else if op = "DIV" then do
        let v ← pyDiv a b
        .ok { m2 with stack := v :: m2.stack }
      else if op = "MOD" then do
        let v ← pyMod a b
        .ok { m2 with stack := v :: m2.stack }
      else if op = "GE" then do
        let c ← pyCmp ">=" a b
        .ok { m2 with stack := .bool (c ≠ .lt) :: m2.stack }
      else if op = "GT" then do
        let c ← pyCmp ">" a b
        .ok { m2 with stack := .bool (c = .gt) :: m2.stack }
      else if op = "LE" then do
        let c ← pyCmp "<=" a b
        .ok { m2 with stack := .bool (c ≠ .gt) :: m2.stack }
      else if op = "LT" then do
        let c ← pyCmp "<" a b
        .ok { m2 with stack := .bool (c = .lt) :: m2.stack }
      else if op = "EQ" then
        .ok { m2 with stack := .bool (pyEq a b) :: m2.stack }
      else if op = "NE" then
        .ok { m2 with stack := .bool (!pyEq a b) :: m2.stack }
      else if op = "AND" then
        .ok { m2 with stack := (if pyTruthy a then b else a) :: m2.stack }
      else
        .ok { m2 with stack := (if pyTruthy a then a else b) :: m2.stack }) = Except.ok mm) :
    ∃ w, mm = { m2 with stack := w } := by
  by_cases h1 : op = "ADD"
  · rw [if_pos h1] at h
    by_cases hn : ¬(isNumV a && isNumV b)
    · rw [if_pos hn] at h
      exact Except.noConfusion h
    · rw [if_neg hn] at h
      exact ⟨_, (Except.ok.inj h).symm⟩
  rw [if_neg h1] at h
  by_cases h2 : op = "SUB"
  · rw [if_pos h2] at h
    by_cases hn : ¬(isNumV a && isNumV b)
    · rw [if_pos hn] at h
      exact Except.noConfusion h
    · rw [if_neg hn] at h
      exact ⟨_, (Except.ok.inj h).symm⟩
  rw [if_neg h2] at h
  by_cases h3 : op = "MUL"
  · rw [if_pos h3] at h
    cases hm : pyMul a b with
    | error e =>
      rw [hm] at h
      simp [Bind.bind, Except.bind] at h
    | ok v =>
      rw [hm] at h
      simp only [Bind.bind, Except.bind] at h
      exact ⟨_, (Except.ok.inj h).symm⟩
  rw [if_neg h3] at h
  by_cases h4 : op = "DIV"
  · rw [if_pos h4] at h
    cases hm : pyDiv a b with
    | error e =>
      rw [hm] at h
      simp [Bind.bind, Except.bind] at h
    | ok v =>
      rw [hm] at h
      simp only [Bind.bind, Except.bind] at h
      exact ⟨_, (Except.ok.inj h).symm⟩
  rw [if_neg h4] at h
  by_cases h5 : op = "MOD"
  · rw [if_pos h5] at h
    cases hm : pyMod a b with
    | error e =>
      rw [hm] at h
      simp [Bind.bind, Except.bind] at h
    | ok v =>
      rw [hm] at h
      simp only [Bind.bind, Except.bind] at h
      exact ⟨_, (Except.ok.inj h).symm⟩
  rw [if_neg h5] at h
  by_cases h6 : op = "GE"
  · rw [if_pos h6] at h
    cases hm : pyCmp ">=" a b with
    | error e =>
      rw [hm] at h
      simp [Bind.bind, Except.bind] at h
    | ok c =>
      rw [hm] at h
      simp only [Bind.bind, Except.bind] at h
      exact ⟨_, (Except.ok.inj h).symm⟩
  rw [if_neg h6] at h
  by_cases h7 : op = "GT"
  · rw [if_pos h7] at h
    cases hm : pyCmp ">" a b with
    | error e =>
      rw [hm] at h
      simp [Bind.bind, Except.bind] at h
    | ok c =>
      rw [hm] at h
      simp only [Bind.bind, Except.bind] at h
      exact ⟨_, (Except.ok.inj h).symm⟩
  rw [if_neg h7] at h
  by_cases h8 : op = "LE"
  · rw [if_pos h8] at h
    cases hm : pyCmp "<=" a b with
    | error e =>
      rw [hm] at h
      simp [Bind.bind, Except.bind] at h
    | ok c =>
      rw [hm] at h
      simp only [Bind.bind, Except.bind] at h
      exact ⟨_, (Except.ok.inj h).symm⟩
  rw [if_neg h8] at h
  by_cases h9 : op = "LT"
  · rw [if_pos h9] at h
    cases hm : pyCmp "<" a b with
    | error e =>
      rw [hm] at h
      simp [Bind.bind, Except.bind] at h
    | ok c =>
      rw [hm] at h
      simp only [Bind.bind, Except.bind] at h
      exact ⟨_, (Except.ok.inj h).symm⟩
  rw [if_neg h9] at h
  by_cases h10 : op = "EQ"
  · rw [if_pos h10] at h
    exact ⟨_, (Except.ok.inj h).symm⟩
  rw [if_neg h10] at h
  by_cases h11 : op = "NE"
  · rw [if_pos h11] at h
    exact ⟨_, (Except.ok.inj h).symm⟩
  rw [if_neg h11] at h
  by_cases h12 : op = "AND"
  · rw [if_pos h12] at h
    exact ⟨_, (Except.ok.inj h).symm⟩
  rw [if_neg h12] at h
  exact ⟨_, (Except.ok.inj h).symm⟩

/-- A dispatched line other than `CALL`, on an empty call stack, preserves
    the bytecode, the label table and the empty call stack, and either
    leaves the (already incremented) IP alone or jumps to the resolved
    target of its own jump instruction. -/
theorem execLine_nocall (line : Line) (m m' : Machine)
    (hnc : ∀ args, line ≠ .instr "CALL" args)
    (hcs : m.call_stack = [])
    (h : execLine line m = .cont m') :
    m'.bytecode = m.bytecode ∧ m'.labels = m.labels ∧ m'.call_stack = [] ∧
      (m'.ip = m.ip ∨ ∃ t j, jmpTarget? line = some t ∧
        dictGet? m.labels t = some j ∧ m'.ip = j) := by
  cases line with
  | label n =>
    injection h with h
    subst h
    exact ⟨rfl, rfl, hcs, Or.inl rfl⟩
  | instr op args =>
    by_cases hH : op = "HALT"
    · subst hH
      exact StepRes.noConfusion h
    by_cases hP : op = "PUSH"
    · subst hP
      injection h with h
      subst h
      exact ⟨rfl, rfl, hcs, Or.inl rfl⟩
    by_cases hL : op = "LOAD"
    · subst hL
      cases args with
      | nil => exact StepRes.noConfusion h
      | cons v rest =>
        injection h with h
        subst h
        exact ⟨rfl, rfl, hcs, Or.inl rfl⟩
    by_cases hS : op = "STORE"
    · subst hS
      cases args with
      | nil => exact StepRes.noConfusion h
      | cons v rest =>
        replace h : stepOf (do
            let (x, m1) ← popV m
            Except.ok { m1 with vars := dictSet m1.vars v x }) = .cont m' := h
        rcases hs : m.stack with _ | ⟨x, rest1⟩
        · have hp : popV m = .error (.indexError "pop from empty list") := by
            simp [popV, hs]
          rw [hp] at h
          simp [Bind.bind, Except.bind, stepOf] at h
        · have hp : popV m = .ok (x, { m with stack := rest1 }) := by
            simp [popV, hs]
          rw [hp] at h
          simp only [Bind.bind, Except.bind] at h
          have h2 := stepOf_cont h
          injection h2 with h2
          subst h2
          exact ⟨rfl, rfl, hcs, Or.inl rfl⟩
    by_cases hA : op = "ADD" ∨ op = "SUB" ∨ op = "MUL" ∨ op = "DIV" ∨ op = "MOD" ∨
        op = "GE" ∨ op = "GT" ∨ op = "LE" ∨ op = "LT" ∨ op = "EQ" ∨ op = "NE" ∨
        op = "AND" ∨ op = "OR"
    · simp only [execLine] at h
      rw [if_neg hH, if_neg hP, if_neg hL, if_neg hS, if_pos hA] at h
      rcases hs : m.stack with _ | ⟨b, rest1⟩
      · have hp : popV m = .error (.indexError "pop from empty list") := by
          simp [popV, hs]
        rw [hp] at h
        simp [Bind.bind, Except.bind, stepOf] at h
      · have hp : popV m = .ok (b, { m with stack := rest1 }) := by
          simp [popV, hs]
        rw [hp] at h
        simp only [Bind.bind, Except.bind] at h
        rcases rest1 with _ | ⟨a, rest2⟩
        · have hp2 : popV { m with stack := ([] : List PyVal) }
              = .error (.indexError "pop from empty list") := rfl
          rw [hp2] at h
          simp [Bind.bind, Except.bind, stepOf] at h
        · have hp2 : popV { m with stack := a :: rest2 }
              = .ok (a, { m with stack := rest2 }) := rfl
          rw [hp2] at h
          simp only [Bind.bind, Except.bind] at h
          obtain ⟨w, he⟩ := arith_group_shape op a b { m with stack := rest2 } m'
            (stepOf_cont h)
          subst he
          exact ⟨rfl, rfl, hcs, Or.inl rfl⟩
    by_cases hJZ : op = "JZ"
    · subst hJZ
      cases args with
      | nil => exact StepRes.noConfusion h
      | cons l rest =>
        replace h : stepOf (do
            let (v, m1) ← popV m
            if ¬pyTruthy v then do
              let i ← labelIx m1 l
              Except.ok { m1 with ip := i }
            else Except.ok m1) = .cont m' := h
        rcases hs : m.stack with _ | ⟨v, rest1⟩
        · have hp : popV m = .error (.indexError "pop from empty list") := by
            simp [popV, hs]
          rw [hp] at h
          simp [Bind.bind, Except.bind, stepOf] at h
        · have hp : popV m = .ok (v, { m with stack := rest1 }) := by
            simp [popV, hs]
          rw [hp] at h
          simp only [Bind.bind, Except.bind] at h
          by_cases ht : pyTruthy v
          · rw [if_neg (not_not_intro ht)] at h
            have h2 := stepOf_cont h
            injection h2 with h2
            subst h2
            exact ⟨rfl, rfl, hcs, Or.inl rfl⟩
          · rw [if_pos ht] at h
            cases hlk : dictGet? m.labels l with
            | none =>
              have hli : labelIx { m with stack := rest1 } l = .error (.keyError l) := by
                simp [labelIx, hlk]
              rw [hli] at h
              simp [Bind.bind, Except.bind, stepOf] at h
            | some j =>
              have hli : labelIx { m with stack := rest1 } l = .ok j := by
                simp [labelIx, hlk]
              rw [hli] at h
              simp only [Bind.bind, Except.bind] at h
              have h2 := stepOf_cont h
              injection h2 with h2
              subst h2
              exact ⟨rfl, rfl, hcs, Or.inr ⟨l, j, rfl, hlk, rfl⟩⟩
    by_cases hJ : op = "JMP"
    · subst hJ
      cases args with
      | nil => exact StepRes.noConfusion h
      | cons l rest =>
        replace h : stepOf (do
            let i ← labelIx m l
            Except.ok { m with ip := i }) = .cont m' := h
        cases hlk : dictGet? m.labels l with
        | none =>
          have hli : labelIx m l = .error (.keyError l) := by
            simp [labelIx, hlk]
          rw [hli] at h
          simp [Bind.bind, Except.bind, stepOf] at h
        | some j =>
          have hli : labelIx m l = .ok j := by
            simp [labelIx, hlk]
          rw [hli] at h
          simp only [Bind.bind, Except.bind] at h
          have h2 := stepOf_cont h
          injection h2 with h2
          subst h2
          exact ⟨rfl, rfl, hcs, Or.inr ⟨l, j, rfl, hlk, rfl⟩⟩
    by_cases hJIF : op = "JMP_IF_FALSE"
    · subst hJIF
      cases args with
      | nil => exact StepRes.noConfusion h
      | cons l rest =>
        replace h : stepOf (do
            let (v, m1) ← popV m
            if ¬pyTruthy v then do
              let i ← labelIx m1 l
              Except.ok { m1 with ip := i }
            else Except.ok m1) = .cont m' := h
        rcases hs : m.stack with _ | ⟨v, rest1⟩
        · have hp : popV m = .error (.indexError "pop from empty list") := by
            simp [popV, hs]
          rw [hp] at h
          simp [Bind.bind, Except.bind, stepOf] at h
        · have hp : popV m = .ok (v, { m with stack := rest1 }) := by
            simp [popV, hs]
          rw [hp] at h
          simp only [Bind.bind, Except.bind] at h
          by_cases ht : pyTruthy v
          · rw [if_neg (not_not_intro ht)] at h
            have h2 := stepOf_cont h
            injection h2 with h2
            subst h2
            exact ⟨rfl, rfl, hcs, Or.inl rfl⟩
          · rw [if_pos ht] at h
            cases hlk : dictGet? m.labels l with
            | none =>
              have hli : labelIx { m with stack := rest1 } l = .error (.keyError l) := by
                simp [labelIx, hlk]
              rw [hli] at h
              simp [Bind.bind, Except.bind, stepOf] at h
            | some j =>
              have hli : labelIx { m with stack := rest1 } l = .ok j := by
                simp [labelIx, hlk]
              rw [hli] at h
              simp only [Bind.bind, Except.bind] at h
              have h2 := stepOf_cont h
              injection h2 with h2
              subst h2
              exact ⟨rfl, rfl, hcs, Or.inr ⟨l, j, rfl, hlk, rfl⟩⟩
    by_cases hC : op = "CALL"
    · subst hC
      exact absurd rfl (hnc args)
    by_cases hR : op = "RET"
    · subst hR
      replace h : (match m.call_stack with
          | [] => StepRes.halt m.vars
          | i :: rest => StepRes.cont { m with ip := i, call_stack := rest }) = .cont m' := h
      rw [hcs] at h
      exact StepRes.noConfusion h
    · simp only [execLine] at h
      rw [if_neg hH, if_neg hP, if_neg hL, if_neg hS, if_neg hA, if_neg hJZ, if_neg hJ,
        if_neg hJIF, if_neg hC, if_neg hR] at h
      exact StepRes.noConfusion h

/-- One non-`CALL` `run`-loop iteration preserves the main-segment
    invariant: with `code[H]` the separating `HALT` and all main jumps
    resolving below `H`, the bytecode, label table and empty call stack are
    unchanged and the IP stays at or before `H`. -/
theorem step_nocall_inv {code : List Line} {H : Nat} {m m' : Machine}
    (hHALT : code[H]? = some (.instr "HALT" []))
    (hmb : MainBounded code H)
    (hbc : m.bytecode = code) (hlab : m.labels = mapLabels code)
    (hcs : m.call_stack = []) (hip : m.ip ≤ H)
    (hnc : isCallAt m = false) (hstep : step m = .cont m') :
    m'.bytecode = code ∧ m'.labels = mapLabels code ∧ m'.call_stack = [] ∧ m'.ip ≤ H := by
  cases hline : m.bytecode[m.ip]? with
  | none =>
    simp only [step, hline] at hstep
    exact StepRes.noConfusion hstep
  | some line =>
    simp only [step, hline] at hstep
    by_cases hiH : m.ip = H
    · have hl : line = .instr "HALT" [] := by
        rw [hbc, hiH] at hline
        exact Option.some.inj (hline.symm.trans hHALT)
      subst hl
      exact StepRes.noConfusion hstep
    · have hlt : m.ip < H := lt_of_le_of_ne hip hiH
      have hnc' : ∀ args, line ≠ .instr "CALL" args := by
        intro args hEq
        subst hEq
        simp only [isCallAt, hline] at hnc
        exact Bool.noConfusion hnc
      have hcs' : ({ m with ip := m.ip + 1 } : Machine).call_stack = [] := hcs
      obtain ⟨hb', hl', hc', hipOr⟩ := execLine_nocall line { m with ip := m.ip + 1 } m'
        hnc' hcs' hstep
      refine ⟨hb'.trans hbc, hl'.trans hlab, hc', ?_⟩
      rcases hipOr with he | ⟨t, j, htg, hdg, he⟩
      · have he' : m'.ip = m.ip + 1 := he
        omega
      · have hline' : code[m.ip]? = some line := by
          rw [← hbc]
          exact hline
        obtain ⟨j', hj', hdg'⟩ := hmb m.ip line t hlt hline' htg
        have hdg2 : dictGet? (mapLabels code) t = some j := by
          have : dictGet? m.labels t = some j := hdg
          rwa [hlab] at this
        have hjj : j = j' := Option.some.inj (hdg2.symm.trans hdg')
        rw [he, hjj]
        exact le_of_lt hj'

/-- Along any `CALL`-free execution from the start of the program, the IP
    never passes the separating `HALT`. -/
theorem reach_bound {code : List Line} {H : Nat}
    (hHALT : code[H]? = some (.instr "HALT" []))
    (hmb : MainBounded code H) :
    ∀ m, ReachNC (initMachine code) m →
      m.bytecode = code ∧ m.labels = mapLabels code ∧ m.call_stack = [] ∧ m.ip ≤ H := by
  intro m hr
  induction hr with
  | refl => exact ⟨rfl, rfl, rfl, Nat.zero_le H⟩
  | step _ hnc hstep ih =>
    exact step_nocall_inv hHALT hmb ih.1 ih.2.1 ih.2.2.1 ih.2.2.2 hnc hstep

/-- The layout of `gen_Program`'s output: the main code, the separating
    `HALT`, then the function code; and every jump of the main segment
    resolves below the `HALT`. -/
theorem program_layout (stmts : List Node) (ln : Nat) (g' : CodeGenSt)
    (hfree : progFreeList stmts = true)
    (hgen : generate (.Program stmts ln) initGen = .ok g') :
    ∃ g1, genMainStmts stmts initGen = .ok g1 ∧
      g'.code = g1.code ++ [.instr "HALT" []] ++ g'.function_code ∧
      g'.code[g1.code.length]? = some (.instr "HALT" []) ∧
      MainBounded g'.code g1.code.length := by
  rw [generate_Program_red] at hgen
  obtain ⟨g1, hmain, h2⟩ := bind_ok hgen
  obtain ⟨g3, hfun, h3⟩ := bind_ok h2
  injection h3 with h3
  subst h3
  obtain ⟨hc1, hls1, Δm, Δfm, hcode1, hfc1, hch1⟩ :=
    genMainStmts_GenOK stmts initGen g1 hfree hmain
  obtain ⟨hc2, hls2, hcode2, Δf2, hfc2, hch2⟩ :=
    genFuncStmts_GenOKF stmts (emitL g1 (.instr "HALT" [])) g3 hfree hfun
  replace hcode1 : g1.code = Δm := hcode1
  replace hfc1 : g1.function_code = Δfm := hfc1
  replace hch1 : ChunkOK 0 g1.label_count [] Δm Δfm := hch1
  replace hc2 : g1.label_count ≤ g3.label_count := hc2
  replace hcode2 : g3.code = g1.code ++ [.instr "HALT" []] := hcode2
  replace hfc2 : g3.function_code = g1.function_code ++ Δf2 := hfc2
  replace hch2 : ChunkOK g1.label_count g3.label_count g1.loop_stack [] Δf2 := hch2
  replace hls1 : g1.loop_stack = [] := hls1
  rw [hls1] at hch2
  have hfull : g3.code ++ g3.function_code
      = Δm ++ [.instr "HALT" []] ++ (Δfm ++ Δf2) := by
    rw [hcode2, hcode1, hfc2, hfc1]
  refine ⟨g1, hmain, ?_, ?_, ?_⟩
  · show g3.code ++ g3.function_code = g1.code ++ [.instr "HALT" []] ++ g3.function_code
    rw [hcode2]
  · show (g3.code ++ g3.function_code)[g1.code.length]? = some (.instr "HALT" [])
    rw [hcode2, List.append_assoc,
      List.getElem?_append_right (Nat.le_refl g1.code.length)]
    simp
  · show MainBounded (g3.code ++ g3.function_code) g1.code.length
    intro i line t hi hline htg
    rw [hcode2, List.append_assoc, List.getElem?_append_left hi, hcode1] at hline
    have hmem : line ∈ Δm := List.getElem?_mem hline
    have htT : t ∈ jmpTargets Δm := List.mem_filterMap.2 ⟨line, hmem, htg⟩
    have hlabm : t ∈ labelsIn Δm := by
      rcases hch1.jmpsOK t htT with hin | hloop
      · exact hin
      · simp [loopLabels] at hloop
    obtain ⟨p, k, hp, hk0, hk1, hteq⟩ := hch1.labMain t hlabm
    subst hteq
    have hpos : (labelsIn Δm).count (ctrLabel p k) ≠ 0 := fun h0 =>
      (List.count_eq_zero.1 h0) hlabm
    have honce := hch1.ctrOnce p k hp
    rw [List.count_append] at honce
    have hcnt1 : (labelsIn Δm).count (ctrLabel p k) = 1 := by omega
    have hcnt0f : (labelsIn Δfm).count (ctrLabel p k) = 0 := by omega
    have hcnt02 : (labelsIn Δf2).count (ctrLabel p k) = 0 :=
      (chunk_counts_zero hch2 hp (Or.inl hk1)).2
    have hcntfull : (labelsIn (g3.code ++ g3.function_code)).count (ctrLabel p k) = 1 := by
      rw [hfull, labelsIn_append, labelsIn_append, labelsIn_singleton_instr,
        labelsIn_append]
      simp [List.count_append, hcnt1, hcnt0f, hcnt02]
    obtain ⟨lineL, hmemL, hnameL⟩ := List.mem_filterMap.1 hlabm
    have hlineL : lineL = .label (ctrLabel p k) := by
      cases lineL with
      | label n =>
        have hn := Option.some.inj hnameL
        rw [hn]
      | instr o as => exact Option.noConfusion hnameL
    subst hlineL
    obtain ⟨j, hj⟩ := List.getElem?_of_mem hmemL
    have hjlt : j < Δm.length := by
      by_contra hge
      rw [List.getElem?_eq_none (Nat.le_of_not_lt hge)] at hj
      exact Option.noConfusion hj
    have hjlt' : j < g1.code.length := by
      rw [hcode1]
      exact hjlt
    have hjfull : (g3.code ++ g3.function_code)[j]? = some (.label (ctrLabel p k)) := by
      rw [hfull,
        List.getElem?_append_left (by rw [List.length_append]; omega),
        List.getElem?_append_left hjlt]
      exact hj
    exact ⟨j, hjlt', mapLabels_found _ _ _ hcntfull hjfull⟩

/-- C7: in the bytecode generated for a `Program` (whose top-level
    statements are program-free parse trees), a `HALT` instruction
    separates the code of the non-`FunctionDef` top-level statements, which
    precede it, from the function code appended after it; and no machine
    state reachable from index 0 without executing a `CALL` ever has its
    instruction pointer beyond that `HALT`. -/
theorem c7_halt_separation (stmts : List Node) (ln : Nat) (g' : CodeGenSt)
    (hfree : progFreeList stmts = true)
    (hgen : generate (.Program stmts ln) initGen = .ok g') :
    ∃ mainC, (∃ g1, genMainStmts stmts initGen = .ok g1 ∧ g1.code = mainC) ∧
      g'.code = mainC ++ [.instr "HALT" []] ++ g'.function_code ∧
      ∀ m, ReachNC (initMachine g'.code) m → m.ip ≤ mainC.length := by
  obtain ⟨g1, hmain, hlay, hH, hmb⟩ := program_layout stmts ln g' hfree hgen
  exact ⟨g1.code, ⟨g1, hmain, rfl⟩, hlay, fun m hr => (reach_bound hH hmb m hr).2.2.2⟩

theorem c7_halt_separation_witness :
    progFreeList c7stmts = true ∧
    (∃ mainC, (∃ g1, genMainStmts c7stmts initGen = .ok g1 ∧ g1.code = mainC) ∧
      c7gen.code = mainC ++ [.instr "HALT" []] ++ c7gen.function_code ∧
      ∀ m, ReachNC (initMachine c7gen.code) m → m.ip ≤ mainC.length) :=
  ⟨by decide, c7_halt_separation c7stmts 0 c7gen (by decide) (by decide)⟩

end StackCompiler
